import Mathlib

/-!
Verification development for the temporal-parser library
(tokenization → offset fusion → recursive-descent parse → AST → serialization).

The TypeScript sources are embedded shallowly:
* strings are `List Char` (the public entry points additionally accept `String`),
* JavaScript numbers that hold parsed integers are `Int`,
* thrown `LexError` / `ParseError` exceptions become `Except Err`,
* the mutable token-index cursor of the parser class is threaded explicitly,
* unbounded `while` loops carry an explicit fuel argument; the fuel-exhaustion
  error is unreachable for token lists produced by the lexer (which always end
  in an EOF token) once the fuel exceeds the token count, and it models the
  fact that the TypeScript loop would not terminate on such inputs.
-/

set_option maxRecDepth 10000

/-- Errors of the library: `LexError` carries a byte offset, `ParseError` a
token index (or caller-supplied position).  Messages are kept verbatim. -/
inductive Err where
  | lexError (message : List Char) (offset : Nat)
  | parseError (message : List Char) (position : Nat)
deriving DecidableEq, Repr

deriving instance DecidableEq for Except

/-- isAlpha.ts: ASCII A-Z / a-z only. -/
def isAlpha (c : Char) : Bool :=
  ('A' ≤ c ∧ c ≤ 'Z') ∨ ('a' ≤ c ∧ c ≤ 'z')

/-- isDigit.ts: ASCII 0-9 only. -/
def isDigit (c : Char) : Bool :=
  '0' ≤ c ∧ c ≤ '9'

/-- isBracketWordChar.ts: letter, digit, or one of `- / + .`. -/
def isBracketWordChar (c : Char) : Bool :=
  isAlpha c ∨ isDigit c ∨ c = '-' ∨ c = '/' ∨ c = '+' ∨ c = '.'

/-- JavaScript whitespace as matched by `/\s/` and `String.prototype.trim`,
restricted to the ASCII range plus NBSP (exotic Unicode space code points are
not modelled; no input in this development contains them). -/
def isJsSpace (c : Char) : Bool :=
  c = ' ' ∨ c = '\t' ∨ c = '\n' ∨ c = '\r' ∨
  c = Char.ofNat 11 ∨ c = Char.ofNat 12 ∨ c = Char.ofNat 160

/-- JavaScript `String.prototype.trim`. -/
def jsTrim (s : List Char) : List Char :=
  ((s.dropWhile isJsSpace).reverse.dropWhile isJsSpace).reverse

/-- Does the list contain the character (JS `String.prototype.includes` for a
single-character needle)? -/
def containsChar (sep : Char) (s : List Char) : Bool :=
  s.any (fun c => c = sep)

/-- JavaScript `String.prototype.split` with a single-character separator. -/
def splitOnChar (sep : Char) : List Char → List (List Char)
  | [] => [[]]
  | c :: rest =>
    match splitOnChar sep rest with
    | [] => [[]]
    | p :: ps => if c = sep then [] :: p :: ps else (c :: p) :: ps

/-- JavaScript `indexOf('=')` + `slice` pair: split a segment at the first
`'='`, returning `none` when there is no `'='`. -/
def splitFirstEq : List Char → Option (List Char × List Char)
  | [] => none
  | c :: rest =>
    if c = '=' then some ([], rest)
    else match splitFirstEq rest with
      | none => none
      | some (k, v) => some (c :: k, v)

/-- JavaScript `String.prototype.startsWith`. -/
def startsWithChars : List Char → List Char → Bool
  | [], _ => true
  | _ :: _, [] => false
  | p :: ps, c :: cs => p = c ∧ startsWithChars ps cs

/-- JavaScript `String.prototype.padStart(n, c)`. -/
def padStart (s : List Char) (n : Nat) (c : Char) : List Char :=
  List.replicate (n - s.length) c ++ s

/-- Decimal digit string of a natural number (JS `Number.prototype.toString`
for non-negative integers). -/
def natToChars (n : Nat) : List Char :=
  Nat.toDigits 10 n

/-- JS `Number.prototype.toString` for integers: decimal, `-` sign for
negative values.  (The exponential form JS uses beyond 1e21 is not modelled;
no value in this development reaches it.) -/
def intToChars (n : Int) : List Char :=
  if n < 0 then '-' :: natToChars (-n).toNat else natToChars n.toNat

/-- JSON.stringify of a string value, as used in error messages.  Only the
escapes relevant to this code base (quote, backslash, and the common control
characters) are modelled; all message inputs here are plain ASCII. -/
def jsonStringify (s : List Char) : List Char :=
  '"' :: s.foldr (fun c acc =>
    if c = '"' then '\\' :: '"' :: acc
    else if c = '\\' then '\\' :: '\\' :: acc
    else if c = '\n' then '\\' :: 'n' :: acc
    else if c = '\t' then '\\' :: 't' :: acc
    else if c = '\r' then '\\' :: 'r' :: acc
    else c :: acc) ['"']

/-! ## Model of the host numeric parser (`Number(string)`)

`toInt` delegates to JavaScript's `Number()` conversion.  `jsNumber` models
the ECMAScript `StringNumericLiteral` grammar with exact (rational) value
semantics, represented as `mantissa × 10 ^ exp10`:

* leading/trailing whitespace is trimmed, the empty remainder is `0`;
* `0x`/`0o`/`0b` radix literals (no sign allowed);
* signed decimal literals `[+-] (digits [. digits] | . digits) [e[+-]digits]`
  and `[+-]Infinity`;
* anything else is NaN.

Float64 rounding and overflow are not modelled: a text whose exact value is a
non-integer that rounds to an integral double (e.g. more than 17 significant
fraction digits) or overflows to Infinity (beyond ~1e308) behaves differently
in JavaScript.  No claim in this development depends on such inputs. -/
inductive JsNum where
  | nan
  | inf (positive : Bool)
  | fin (mantissa : Int) (exp10 : Int)
deriving DecidableEq, Repr

/-- Numeric value of a digit character in the given base, if valid. -/
def hexDigitVal (c : Char) : Option Nat :=
  if '0' ≤ c ∧ c ≤ '9' then some (c.toNat - '0'.toNat)
  else if 'a' ≤ c ∧ c ≤ 'f' then some (c.toNat - 'a'.toNat + 10)
  else if 'A' ≤ c ∧ c ≤ 'F' then some (c.toNat - 'A'.toNat + 10)
  else none

/-- Value of a digit run in base `b` (digits already validated). -/
def digitsVal (b : Nat) (ds : List Char) : Nat :=
  ds.foldl (fun acc c => b * acc + ((hexDigitVal c).getD 0)) 0

/-- Is the run a non-empty string of digits valid in base `b`? -/
def validDigits (b : Nat) (ds : List Char) : Bool :=
  ds ≠ [] ∧ ds.all (fun c => match hexDigitVal c with
    | some v => v < b
    | none => false)

/-- Exponent part of a decimal literal: empty, or `e|E [+-] digits`;
returns `none` when malformed. -/
def jsExponent : List Char → Option Int
  | [] => some 0
  | c :: rest =>
    if c = 'e' ∨ c = 'E' then
      match rest with
      | '+' :: ds => if validDigits 10 ds then some (digitsVal 10 ds) else none
      | '-' :: ds => if validDigits 10 ds then some (-(digitsVal 10 ds : Int)) else none
      | ds => if validDigits 10 ds then some (digitsVal 10 ds) else none
    else none

/-- Unsigned decimal literal `digits [. digits] [exp]` or `. digits [exp]`;
value is `mantissa × 10 ^ exp10`. -/
def jsDecimal (l : List Char) : Option (Nat × Int) :=
  let intPart := l.takeWhile isDigit
  let r1 := l.dropWhile isDigit
  match r1 with
  | [] => if intPart ≠ [] then some (digitsVal 10 intPart, 0) else none
  | '.' :: r2 =>
    let fracPart := r2.takeWhile isDigit
    let r3 := r2.dropWhile isDigit
    if intPart = [] ∧ fracPart = [] then none
    else match jsExponent r3 with
      | some e => some (digitsVal 10 (intPart ++ fracPart), e - fracPart.length)
      | none => none
  | r1' =>
    if intPart = [] then none
    else match jsExponent r1' with
      | some e => some (digitsVal 10 intPart, e)
      | none => none

/-- Model of JavaScript `Number(string)`; see the section comment above. -/
def jsNumber (s : List Char) : JsNum :=
  let t := jsTrim s
  match t with
  | [] => .fin 0 0
  | '0' :: x :: ds =>
    if x = 'x' ∨ x = 'X' then
      if validDigits 16 ds then .fin (digitsVal 16 ds) 0 else .nan
    else if x = 'o' ∨ x = 'O' then
      if validDigits 8 ds then .fin (digitsVal 8 ds) 0 else .nan
    else if x = 'b' ∨ x = 'B' then
      if validDigits 2 ds then .fin (digitsVal 2 ds) 0 else .nan
    else
      jsSigned t
  | _ => jsSigned t
where
  /-- Signed decimal / Infinity literal. -/
  jsSigned (t : List Char) : JsNum :=
    let (neg, body) :=
      match t with
      | '+' :: rest => (false, rest)
      | '-' :: rest => (true, rest)
      | rest => (false, rest)
    if body = ('I' :: 'n' :: 'f' :: 'i' :: 'n' :: 'i' :: 't' :: 'y' :: []) then
      .inf (!neg)
    else match jsDecimal body with
      | some (m, e) => .fin (if neg then -(m : Int) else (m : Int)) e
      | none => .nan

/-- toInt.ts: convert a string to an integer via the host `Number()`
conversion, throwing a `ParseError` unless the result is a finite integer. -/
def toInt (s : List Char) (label : List Char) (position : Nat) : Except Err Int :=
  match jsNumber s with
  | .fin m e =>
    if 0 ≤ e then .ok (m * (10 : Int) ^ e.toNat)
    else if ((10 : Int) ^ (-e).toNat) ∣ m then .ok (m / (10 : Int) ^ (-e).toNat)
    else .error (.parseError ("Invalid integer for ".data ++ label ++ ": ".data ++ jsonStringify s) position)
  | _ => .error (.parseError ("Invalid integer for ".data ++ label ++ ": ".data ++ jsonStringify s) position)

/-! ## Tokens (lexer-types.ts) -/

/-- Token kinds emitted by the lexer (enum `TokType`). -/
inductive TokType where
  | Number | Ident
  | Dash | Colon | Dot | Plus | Slash | Comma | Equals | Underscore | Exclamation
  | T | Z
  | LBracket | RBracket
  | BracketText
  | EOF
deriving DecidableEq, Repr

/-- String value of a `TokType`, as used by TypeScript's string enum in error
messages (`Expected ${type} but got ${t.type}`). -/
def TokType.name : TokType → List Char
  | .Number => "Number".data
  | .Ident => "Ident".data
  | .Dash => "Dash".data
  | .Colon => "Colon".data
  | .Dot => "Dot".data
  | .Plus => "Plus".data
  | .Slash => "Slash".data
  | .Comma => "Comma".data
  | .Equals => "Equals".data
  | .Underscore => "Underscore".data
  | .Exclamation => "Exclamation".data
  | .T => "T".data
  | .Z => "Z".data
  | .LBracket => "LBracket".data
  | .RBracket => "RBracket".data
  | .BracketText => "BracketText".data
  | .EOF => "EOF".data

/-- A raw lexer token; `stop` models the TypeScript field `end`
(half-open span). -/
structure Token where
  type : TokType
  value : List Char
  start : Nat
  stop : Nat
deriving DecidableEq, Repr

/-- `AnyToken = Token | CombinedToken`: either a raw token or a fused
timezone-offset token (`CombinedTokType.TZOffset`).  The `tokens` field holds
the constituent tokens; it is typed here as `List AnyToken` because the fuser
is also applied to already-fused sequences (idempotence). -/
inductive AnyToken where
  | raw (t : Token)
  | tzOffset (value : List Char) (tokens : List AnyToken) (start stop : Nat)

/-- The discriminating `type` field of an `AnyToken`: a base `TokType` or the
combined `TZOffset` kind. -/
inductive ATokType where
  | base (t : TokType)
  | TZOffset
deriving DecidableEq, Repr

/-- String value of an `ATokType` for error messages. -/
def ATokType.name : ATokType → List Char
  | .base t => t.name
  | .TZOffset => "TZOffset".data

/-- The `type` field of a token. -/
def AnyToken.atype : AnyToken → ATokType
  | .raw t => .base t.type
  | .tzOffset _ _ _ _ => .TZOffset

/-- The `value` field of a token. -/
def AnyToken.aval : AnyToken → List Char
  | .raw t => t.value
  | .tzOffset v _ _ _ => v

/-- The `start` field of a token. -/
def AnyToken.astart : AnyToken → Nat
  | .raw t => t.start
  | .tzOffset _ _ s _ => s

/-- The `end` field of a token. -/
def AnyToken.astop : AnyToken → Nat
  | .raw t => t.stop
  | .tzOffset _ _ _ e => e

/-! ## Lexer (lexer.ts)

`lexTemporal` scans the source left to right.  The two scanning loops are
modelled with fuel; `lexTemporal` supplies `length + 1`, which always
suffices because every iteration consumes at least one character. -/

/-- Message of the fuel-exhaustion error (unreachable from `lexTemporal`). -/
def fuelMsg : List Char := "out of fuel".data

/-- Default-mode single-character punctuation (the `switch` at the end of the
main loop). -/
def punctType (c : Char) : Option TokType :=
  if c = '-' then some .Dash
  else if c = ':' then some .Colon
  else if c = '.' then some .Dot
  else if c = '+' then some .Plus
  else if c = '/' then some .Slash
  else if c = ',' then some .Comma
  else if c = '=' then some .Equals
  else if c = '_' then some .Underscore
  else none

/-- Bracket-mode single-character tokens (`= _ : - + / . , !`). -/
def bracketPunctType (c : Char) : Option TokType :=
  if c = '=' then some .Equals
  else if c = '_' then some .Underscore
  else if c = ':' then some .Colon
  else if c = '-' then some .Dash
  else if c = '+' then some .Plus
  else if c = '/' then some .Slash
  else if c = '.' then some .Dot
  else if c = ',' then some .Comma
  else if c = '!' then some .Exclamation
  else none

/-- `lexBracketContent`: emit tokens until (not including) `']'`; returns the
tokens and the number of characters consumed.  Reaching the end of input
raises the unterminated-bracket error at the current (end) offset. -/
def lexBracketContent (fuel : Nat) (pos : Nat) (l : List Char) :
    Except Err (List Token × Nat) :=
  match fuel with
  | 0 => .error (.lexError fuelMsg pos)
  | fuel + 1 =>
    match l with
    | [] => .error (.lexError "Unterminated bracket annotation, expected ']'".data pos)
    | c :: rest =>
      if c = ']' then .ok ([], 0)
      else if isJsSpace c then do
        let (ts, n) ← lexBracketContent fuel (pos + 1) rest
        .ok (ts, n + 1)
      else match bracketPunctType c with
        | some tt => do
          let (ts, n) ← lexBracketContent fuel (pos + 1) rest
          .ok (⟨tt, [c], pos, pos + 1⟩ :: ts, n + 1)
        | none =>
          if isBracketWordChar c then
            let w := c :: rest.takeWhile isBracketWordChar
            let rest' := rest.dropWhile isBracketWordChar
            let tt : TokType := if w.all isAlpha then .Ident else .BracketText
            do
              let (ts, n) ← lexBracketContent fuel (pos + w.length) rest'
              .ok (⟨tt, w, pos, pos + w.length⟩ :: ts, n + w.length)
          else
            .error (.lexError ("Unexpected character ".data ++ jsonStringify [c]
              ++ " inside brackets".data) pos)

/-- Main lexer loop of `lexTemporal`. -/
def lexGo (fuel : Nat) (pos : Nat) (l : List Char) : Except Err (List Token) :=
  match fuel with
  | 0 => .error (.lexError fuelMsg pos)
  | fuel + 1 =>
    match l with
    | [] => .ok [⟨.EOF, [], pos, pos⟩]
    | c :: rest =>
      if isJsSpace c then lexGo fuel (pos + 1) rest
      else if c = '[' then do
        let (btoks, n) ← lexBracketContent (rest.length + 1) (pos + 1) rest
        match rest.drop n with
        | ']' :: rest2 => do
          let more ← lexGo fuel (pos + n + 2) rest2
          .ok (⟨.LBracket, ['['], pos, pos + 1⟩ :: btoks
            ++ ⟨.RBracket, [']'], pos + n + 1, pos + n + 2⟩ :: more)
        | _ => .error (.lexError "Unterminated bracket annotation, expected ']'".data (pos + n + 1))
      else if isDigit c then
        let ds := c :: rest.takeWhile isDigit
        let rest' := rest.dropWhile isDigit
        do
          let more ← lexGo fuel (pos + ds.length) rest'
          .ok (⟨.Number, ds, pos, pos + ds.length⟩ :: more)
      else if isAlpha c then
        if c = 'T' then do
          let more ← lexGo fuel (pos + 1) rest
          .ok (⟨.T, ['T'], pos, pos + 1⟩ :: more)
        else if c = 'Z' then do
          let more ← lexGo fuel (pos + 1) rest
          .ok (⟨.Z, ['Z'], pos, pos + 1⟩ :: more)
        else
          let w := c :: rest.takeWhile (fun x => isAlpha x ∧ x ≠ 'T' ∧ x ≠ 'Z')
          let rest' := rest.dropWhile (fun x => isAlpha x ∧ x ≠ 'T' ∧ x ≠ 'Z')
          do
            let more ← lexGo fuel (pos + w.length) rest'
            .ok (⟨.Ident, w, pos, pos + w.length⟩ :: more)
      else match punctType c with
        | some tt => do
          let more ← lexGo fuel (pos + 1) rest
          .ok (⟨tt, [c], pos, pos + 1⟩ :: more)
        | none => .error (.lexError ("Unexpected character ".data ++ jsonStringify [c]) pos)

/-- lexer.ts `lexTemporal`: tokenize a complete source string; the token list
always ends with a zero-width EOF token. -/
def lexTemporal (src : List Char) : Except Err (List Token) :=
  lexGo (src.length + 1) 0 src

/-! ## Offset fuser (combineTimezoneOffsets.ts)

The TypeScript loop pushes tokens onto an output array `out` and consults the
last two entries of `out` for context.  The model passes the already-emitted
output (in reverse order, most recent first) as `ctx` and returns the tokens
still to be emitted, so `combineTimezoneOffsets toks = fuseGo [] toks`. -/

/-- Is this token a `+` or `-` sign? -/
def isSignTok (t : AnyToken) : Bool :=
  t.atype = .base .Plus ∨ t.atype = .base .Dash

/-- `couldBeTzOffset`: context check over the already-emitted output
(`ctx.head?` is `out[out.length-1]`, the next entry is `out[out.length-2]`). -/
def couldBeTzOffset (ctx : List AnyToken) : Bool :=
  match ctx with
  | [] => false
  | prev :: ctx2 =>
    if prev.atype = .base .Z then false
    else if prev.atype = .base .RBracket then false
    else if prev.atype = .base .Number then
      match ctx2 with
      | [] => false
      | prevPrev :: _ =>
        prevPrev.atype = .base .Colon ∨ prevPrev.atype = .base .Dot
    else false

/-- Fused token for the shape `sign Number Colon Number` (the literal `':'`
is re-inserted between the two number values). -/
def mkFused4 (t n1 c n2 : AnyToken) : AnyToken :=
  .tzOffset (t.aval ++ n1.aval ++ ':' :: n2.aval) [t, n1, c, n2] t.astart n2.astop

/-- Fused token for the shape `sign Number` with a 2- or 4-digit number. -/
def mkFused2 (t n1 : AnyToken) : AnyToken :=
  .tzOffset (t.aval ++ n1.aval) [t, n1] t.astart n1.astop

/-- Main fuser loop; `ctx` is the already-emitted output in reverse order.
The loop consumes at least one input token and one unit of fuel per
iteration, so any `fuel ≥ l.length` gives the loop's exact semantics (the
fuel-0 escape emits the remaining tokens unfused and is then unreachable). -/
def fuseGo (fuel : Nat) (ctx : List AnyToken) (l : List AnyToken) : List AnyToken :=
  match fuel with
  | 0 => l
  | fuel + 1 =>
    match l with
    | [] => []
    | t :: rest =>
      if isSignTok t && couldBeTzOffset ctx then
        match rest with
        | n1 :: c :: n2 :: rest' =>
          if n1.atype = ATokType.base .Number ∧ c.atype = ATokType.base .Colon
              ∧ n2.atype = ATokType.base .Number then
            mkFused4 t n1 c n2 :: fuseGo fuel (mkFused4 t n1 c n2 :: ctx) rest'
          else if n1.atype = ATokType.base .Number
              ∧ (n1.aval.length = 2 ∨ n1.aval.length = 4) then
            mkFused2 t n1 :: fuseGo fuel (mkFused2 t n1 :: ctx) (c :: n2 :: rest')
          else
            t :: fuseGo fuel (t :: ctx) rest
        | n1 :: rest2 =>
          if n1.atype = ATokType.base .Number
              ∧ (n1.aval.length = 2 ∨ n1.aval.length = 4) then
            mkFused2 t n1 :: fuseGo fuel (mkFused2 t n1 :: ctx) rest2
          else
            t :: fuseGo fuel (t :: ctx) rest
        | [] => t :: fuseGo fuel (t :: ctx) rest
      else t :: fuseGo fuel (t :: ctx) rest

/-- combineTimezoneOffsets.ts: merge sign + number (+ colon + number) token
windows into single `TZOffset` tokens when the local context makes the
timezone-offset reading unambiguous. -/
def combineTimezoneOffsets (tokens : List AnyToken) : List AnyToken :=
  fuseGo tokens.length [] tokens

/-! ## AST (parser-types.ts) -/

/-- `DateAst`: progressive-precision date. -/
structure DateAst where
  year : Int
  month : Option Int := none
  day : Option Int := none
deriving DecidableEq, Repr

/-- `TimeAst`: hour/minute with optional second and verbatim fraction text. -/
structure TimeAst where
  hour : Int
  minute : Int
  second : Option Int := none
  fraction : Option (List Char) := none
deriving DecidableEq, Repr

/-- `OffsetAst`: the `Z` marker, or a numeric offset with sign, components and
the original raw text. -/
inductive OffsetAst where
  | utcOffset
  | numericOffset (sign : Char) (hours minutes : Int) (raw : List Char)
deriving DecidableEq, Repr

/-- `TimeZoneAst` (`kind: 'IanaTimeZone'`). -/
structure TimeZoneAst where
  id : List Char
  critical : Bool
deriving DecidableEq, Repr

/-- Value of an annotation pair: a string, or `true` for a bare flag. -/
inductive PairVal where
  | str (v : List Char)
  | flagTrue
deriving DecidableEq, Repr

/-- `AnnotationAst`; `pairs` models the insertion-ordered JS record
`Record<string, string | true>`. -/
structure AnnotationAst where
  raw : List Char
  critical : Bool
  pairs : List (List Char × PairVal)
deriving DecidableEq, Repr

/-- `DateTimeAst`. -/
structure DateTimeAst where
  date : DateAst
  time : Option TimeAst := none
  offset : Option OffsetAst := none
  timeZone : Option TimeZoneAst := none
  annotations : List AnnotationAst := []
deriving DecidableEq, Repr

/-- `DurationAst`: optional per-field accumulators (presence is significant),
fractional-seconds text, the reconstructed raw text, and annotations. -/
structure DurationAst where
  years : Option Int := none
  months : Option Int := none
  weeks : Option Int := none
  days : Option Int := none
  hours : Option Int := none
  minutes : Option Int := none
  seconds : Option Int := none
  secondsFraction : Option (List Char) := none
  raw : List Char := []
  annotations : List AnnotationAst := []
deriving DecidableEq, Repr

/-- `ValueAst = DateTimeAst | DurationAst`. -/
inductive ValueAst where
  | dateTime (dt : DateTimeAst)
  | duration (d : DurationAst)
deriving DecidableEq, Repr

/-- `TemporalAst = RangeAst | ValueAst`; `stop` models the TS field `end`. -/
inductive TemporalAst where
  | range (start : Option ValueAst) (stop : Option ValueAst)
  | value (v : ValueAst)
deriving DecidableEq, Repr

/-! ## Offset parser (parseOffset.ts) -/

/-- Maximum offset hours (UTC−12:00 … UTC+14:00). -/
def MAX_OFFSET_HOURS : Int := 14

/-- Maximum offset minutes. -/
def MAX_MINUTES : Int := 59

/-- Message of the hours-range `ParseError` of `parseOffset`. -/
def offsetHoursRangeMsg (hours : Int) : List Char :=
  "Offset hours must be 0-".data ++ intToChars MAX_OFFSET_HOURS
    ++ ", got ".data ++ intToChars hours

/-- Message of the minutes-range `ParseError` of `parseOffset`. -/
def offsetMinutesRangeMsg (minutes : Int) : List Char :=
  "Offset minutes must be 0-".data ++ intToChars MAX_MINUTES
    ++ ", got ".data ++ intToChars minutes

/-- parseOffset.ts: parse a standalone numeric offset string (`+08:00`,
`-0530`, `+09`) into sign/hours/minutes, validating ranges. -/
def parseOffset (offsetString : List Char) (position : Nat := 0) : Except Err OffsetAst :=
  match offsetString with
  | [] => .error (.parseError "Offset string cannot be empty".data position)
  | sign :: rest =>
    if sign ≠ '+' ∧ sign ≠ '-' then
      .error (.parseError ("Offset must start with + or -, got ".data
        ++ jsonStringify [sign]) position)
    else if rest.length = 0 then
      .error (.parseError "Offset sign must be followed by digits".data position)
    else do
      let raw := sign :: rest
      let (hours, minutes) ←
        if containsChar ':' rest then
          let parts := splitOnChar ':' rest
          if parts.length ≠ 2 then
            .error (.parseError ("Invalid offset format: ".data ++ raw
              ++ " (expected HH:MM)".data) position)
          else do
            let h ← toInt (parts.getD 0 []) "offset hours".data position
            let m ← toInt (parts.getD 1 []) "offset minutes".data position
            pure (h, m)
        else if rest.length = 4 then do
          let h ← toInt (rest.take 2) "offset hours".data position
          let m ← toInt (rest.drop 2) "offset minutes".data position
          pure (h, m)
        else if rest.length = 2 then do
          let h ← toInt rest "offset hours".data position
          pure (h, (0 : Int))
        else
          .error (.parseError ("Invalid offset format: ".data ++ raw
            ++ " (expected +HH:MM, +HHMM, or +HH)".data) position)
      if hours < 0 ∨ hours > MAX_OFFSET_HOURS then
        .error (.parseError (offsetHoursRangeMsg hours) position)
      else if minutes < 0 ∨ minutes > MAX_MINUTES then
        .error (.parseError (offsetMinutesRangeMsg minutes) position)
      else
        pure (.numericOffset sign hours minutes raw)

/-! ## Recursive-descent parser (parser.ts)

The `Parser` class holds the fused token array `toks` and a mutable cursor
`i`; here `toks` is a fixed parameter and the cursor is threaded through the
functions, each returning its result together with the new cursor.  The
`while` loops of the class become fuel-indexed recursive functions; every
call site passes `toks.length + 1`, which exceeds the possible number of
iterations (each iteration advances the cursor by at least one). -/
namespace Parser

/-- Default used to model `toks[...]` clamping on an empty array (the
pipeline never constructs a parser over an empty token list). -/
def defaultTok : AnyToken := .raw ⟨.EOF, [], 0, 0⟩

/-- `peek(k)`: the token at `min(i + k, length - 1)`. -/
def peek (toks : List AnyToken) (i : Nat) (k : Nat := 0) : AnyToken :=
  toks.getD (min (i + k) (toks.length - 1)) defaultTok

/-- `at(type)`. -/
def isAt (toks : List AnyToken) (i : Nat) (ty : ATokType) : Bool :=
  (peek toks i).atype = ty

/-- `eat(type)`: return the token and advance, or raise
`Expected ... but got ...` at the current index. -/
def eat (toks : List AnyToken) (i : Nat) (ty : ATokType) :
    Except Err (AnyToken × Nat) :=
  let t := peek toks i
  if t.atype = ty then .ok (t, i + 1)
  else .error (.parseError ("Expected ".data ++ ty.name ++ " but got ".data
    ++ t.atype.name) i)

/-- `tryEat(type)`. -/
def tryEat (toks : List AnyToken) (i : Nat) (ty : ATokType) :
    Option AnyToken × Nat :=
  if isAt toks i ty then (some (peek toks i), i + 1) else (none, i)

/-- `parseDate`: year, optional `-MM`, optional `-DD`. -/
def parseDate (toks : List AnyToken) (i : Nat) : Except Err (DateAst × Nat) := do
  let (yTok, i) ← eat toks i (.base .Number)
  let year ← toInt yTok.aval "year".data i
  match tryEat toks i (.base .Dash) with
  | (none, i) => pure ({ year }, i)
  | (some _, i) => do
    let (mTok, i) ← eat toks i (.base .Number)
    let month ← toInt mTok.aval "month".data i
    match tryEat toks i (.base .Dash) with
    | (none, i) => pure ({ year, month := some month }, i)
    | (some _, i) => do
      let (dTok, i) ← eat toks i (.base .Number)
      let day ← toInt dTok.aval "day".data i
      pure ({ year, month := some month, day := some day }, i)

/-- `parseTime`: `HH:MM`, optional `:SS`, optional `.fff` (only the dot
separator is tried for the fraction). -/
def parseTime (toks : List AnyToken) (i : Nat) : Except Err (TimeAst × Nat) := do
  let (hTok, i) ← eat toks i (.base .Number)
  let hour ← toInt hTok.aval "hour".data i
  let (_, i) ← eat toks i (.base .Colon)
  let (minTok, i) ← eat toks i (.base .Number)
  let minute ← toInt minTok.aval "minute".data i
  match tryEat toks i (.base .Colon) with
  | (none, i) => pure ({ hour, minute }, i)
  | (some _, i) => do
    let (sTok, i) ← eat toks i (.base .Number)
    let second ← toInt sTok.aval "second".data i
    match tryEat toks i (.base .Dot) with
    | (none, i) => pure ({ hour, minute, second := some second }, i)
    | (some _, i) => do
      let (fracTok, i) ← eat toks i (.base .Number)
      pure ({ hour, minute, second := some second, fraction := some fracTok.aval }, i)

/-- `parseOffsetIfPresent`: `Z` → UtcOffset; a fused `TZOffset` token →
delegate its text to `parseOffset` (with the post-eat cursor as position);
anything else → absent. -/
def parseOffsetIfPresent (toks : List AnyToken) (i : Nat) :
    Except Err (Option OffsetAst × Nat) := do
  match tryEat toks i (.base .Z) with
  | (some _, i) => pure (some .utcOffset, i)
  | (none, i) =>
    if isAt toks i .TZOffset then do
      let (t, i) ← eat toks i .TZOffset
      let o ← parseOffset t.aval i
      pure (some o, i)
    else pure (none, i)

/-- Result of `parseBracketGroup`. -/
structure BracketGroup where
  raw : List Char
  critical : Bool
  pairs : List (List Char × PairVal)
  isLikelyTzId : Bool
deriving DecidableEq, Repr

/-- JS object insertion: overwrite in place on an existing key, else append. -/
def recordSet (ps : List (List Char × PairVal)) (k : List Char) (v : PairVal) :
    List (List Char × PairVal) :=
  match ps with
  | [] => [(k, v)]
  | (k', v') :: rest =>
    if k' = k then (k', v) :: rest else (k', v') :: recordSet rest k v

/-- Final computation of `parseBracketGroup` from the critical flag and the
gathered part texts (the `'!'` part is already included when critical):
joined raw text, best-effort key/value pairs, and the timezone-id heuristic
(`no '=' present, and contains '/' or starts with "Etc/"`). -/
def mkBracketGroup (critical : Bool) (parts : List (List Char)) : BracketGroup :=
  let raw := parts.foldr (· ++ ·) []
  let contentToParse := if critical then raw.drop 1 else raw
  let segments := ((splitOnChar ',' contentToParse).map jsTrim).filter (· ≠ [])
  let pairs := segments.foldl (fun ps seg =>
    match splitFirstEq seg with
    | none => recordSet ps seg .flagTrue
    | some (kRaw, vRaw) =>
      let k := jsTrim kRaw
      let v := jsTrim vRaw
      if k ≠ [] then recordSet ps k (if v = [] then .flagTrue else .str v) else ps) []
  let isLikelyTzId := !containsChar '=' contentToParse
    && (containsChar '/' contentToParse || startsWithChars "Etc/".data contentToParse)
  { raw, critical, pairs, isLikelyTzId }

/-- Inner token-gather loop of `parseBracketGroup` (`while (!at(RBracket))`,
throwing `Unterminated bracket group` on EOF). -/
def gatherParts (toks : List AnyToken) (fuel : Nat) (i : Nat)
    (parts : List (List Char)) : Except Err (List (List Char) × Nat) :=
  match fuel with
  | 0 => .error (.parseError fuelMsg i)
  | fuel + 1 =>
    if isAt toks i (.base .RBracket) then .ok (parts, i)
    else if isAt toks i (.base .EOF) then
      .error (.parseError "Unterminated bracket group".data i)
    else gatherParts toks fuel (i + 1) (parts ++ [(peek toks i).aval])

/-- `parseBracketGroup`: consume `[ ... ]`, with optional leading `'!'`
critical flag. -/
def parseBracketGroup (toks : List AnyToken) (i : Nat) :
    Except Err (BracketGroup × Nat) := do
  let (_, i) ← eat toks i (.base .LBracket)
  let (excl, i) := tryEat toks i (.base .Exclamation)
  let critical := excl.isSome
  let parts0 : List (List Char) := if critical then [['!']] else []
  let (parts, i) ← gatherParts toks (toks.length + 1) i parts0
  let (_, i) ← eat toks i (.base .RBracket)
  pure (mkBracketGroup critical parts, i)

/-- Bracket-group loop of `parseDateTime`: the first timezone-like group (by
the heuristic) becomes the `timeZone` field (critical flag preserved, leading
`'!'` stripped from the id); every other group is appended to `annotations`
in source order. -/
def dateTimeBrackets (toks : List AnyToken) (fuel : Nat) (i : Nat)
    (timeZone : Option TimeZoneAst) (annotations : List AnnotationAst) :
    Except Err ((Option TimeZoneAst × List AnnotationAst) × Nat) :=
  match fuel with
  | 0 => .error (.parseError fuelMsg i)
  | fuel + 1 =>
    if isAt toks i (.base .LBracket) then do
      let (g, i) ← parseBracketGroup toks i
      if timeZone.isNone ∧ g.isLikelyTzId then
        let id := if g.critical then g.raw.drop 1 else g.raw
        dateTimeBrackets toks fuel i (some { id, critical := g.critical }) annotations
      else
        dateTimeBrackets toks fuel i timeZone
          (annotations ++ [{ raw := g.raw, critical := g.critical, pairs := g.pairs }])
    else pure ((timeZone, annotations), i)

/-- `parseDateTime`: date, optional `T`-separated time, optional offset, then
bracket groups. -/
def parseDateTime (toks : List AnyToken) (i : Nat) :
    Except Err (DateTimeAst × Nat) := do
  let (date, i) ← parseDate toks i
  let (time, i) ←
    match tryEat toks i (.base .T) with
    | (some _, i) => do
      let (t, i) ← parseTime toks i
      pure (some t, i)
    | (none, i) => pure ((none : Option TimeAst), i)
  let (offset, i) ← parseOffsetIfPresent toks i
  let ((timeZone, annotations), i) ← dateTimeBrackets toks (toks.length + 1) i none []
  pure ({ date, time, offset, timeZone, annotations }, i)

/-- Duration accumulator fields (`dur` in `parseDuration`). -/
structure DurFields where
  years : Option Int := none
  months : Option Int := none
  weeks : Option Int := none
  days : Option Int := none
  hours : Option Int := none
  minutes : Option Int := none
  seconds : Option Int := none
  secondsFraction : Option (List Char) := none
deriving DecidableEq, Repr

/-- Designator loop of `parseDuration`: runs until EOF, `/`, or `[`; `T`
flips `inTime`; each `(Number, fraction?, Ident)` group sums into the
matching field; unknown units raise the date-part/time-part errors. -/
def durLoop (toks : List AnyToken) (fuel : Nat) (i : Nat) (inTime : Bool)
    (dur : DurFields) (rawAcc : List Char) :
    Except Err ((DurFields × List Char) × Nat) :=
  match fuel with
  | 0 => .error (.parseError fuelMsg i)
  | fuel + 1 =>
    if isAt toks i (.base .EOF) ∨ isAt toks i (.base .Slash)
        ∨ isAt toks i (.base .LBracket) then
      .ok ((dur, rawAcc), i)
    else match tryEat toks i (.base .T) with
    | (some _, i) => durLoop toks fuel i true dur (rawAcc ++ ['T'])
    | (none, i) =>
      match tryEat toks i (.base .Number) with
      | (none, i) => .ok ((dur, rawAcc), i)
      | (some numTok, i) => do
        let rawAcc := rawAcc ++ numTok.aval
        let (fraction, rawAcc, i) ←
          match tryEat toks i (.base .Dot) with
          | (some _, i) => do
            let (fracTok, i) ← eat toks i (.base .Number)
            pure (some fracTok.aval, rawAcc ++ '.' :: fracTok.aval, i)
          | (none, i) => pure ((none : Option (List Char)), rawAcc, i)
        let (unitTok, i) ← eat toks i (.base .Ident)
        let unit := unitTok.aval
        let rawAcc := rawAcc ++ unit
        let n ← toInt numTok.aval "duration number".data i
        if !inTime then
          if unit = ['Y'] then
            durLoop toks fuel i inTime { dur with years := some ((dur.years.getD 0) + n) } rawAcc
          else if unit = ['M'] then
            durLoop toks fuel i inTime { dur with months := some ((dur.months.getD 0) + n) } rawAcc
          else if unit = ['W'] then
            durLoop toks fuel i inTime { dur with weeks := some ((dur.weeks.getD 0) + n) } rawAcc
          else if unit = ['D'] then
            durLoop toks fuel i inTime { dur with days := some ((dur.days.getD 0) + n) } rawAcc
          else
            .error (.parseError ("Invalid duration unit '".data ++ unit
              ++ "' in date part".data) i)
        else
          if unit = ['H'] then
            durLoop toks fuel i inTime { dur with hours := some ((dur.hours.getD 0) + n) } rawAcc
          else if unit = ['M'] then
            durLoop toks fuel i inTime { dur with minutes := some ((dur.minutes.getD 0) + n) } rawAcc
          else if unit = ['S'] then
            let dur := { dur with seconds := some ((dur.seconds.getD 0) + n) }
            let dur := match fraction with
              | some f => if f.length > 0 then { dur with secondsFraction := some f } else dur
              | none => dur
            durLoop toks fuel i inTime dur rawAcc
          else
            .error (.parseError ("Invalid duration unit '".data ++ unit
              ++ "' in time part".data) i)

/-- Trailing bracket-annotation loop of `parseDuration`. -/
def durationBrackets (toks : List AnyToken) (fuel : Nat) (i : Nat)
    (annotations : List AnnotationAst) : Except Err (List AnnotationAst × Nat) :=
  match fuel with
  | 0 => .error (.parseError fuelMsg i)
  | fuel + 1 =>
    if isAt toks i (.base .LBracket) then do
      let (g, i) ← parseBracketGroup toks i
      durationBrackets toks fuel i
        (annotations ++ [{ raw := g.raw, critical := g.critical, pairs := g.pairs }])
    else pure (annotations, i)

/-- `parseDuration`: `P`, designator loop, trailing bracket annotations. -/
def parseDuration (toks : List AnyToken) (i : Nat) :
    Except Err (DurationAst × Nat) := do
  let (pTok, i) ← eat toks i (.base .Ident)
  if pTok.aval ≠ ['P'] then
    .error (.parseError "Duration must start with 'P'".data i)
  else do
    let ((dur, rawAcc), i) ← durLoop toks (toks.length + 1) i false {} ['P']
    let (annotations, i) ← durationBrackets toks (toks.length + 1) i []
    pure ({ years := dur.years, months := dur.months, weeks := dur.weeks,
            days := dur.days, hours := dur.hours, minutes := dur.minutes,
            seconds := dur.seconds, secondsFraction := dur.secondsFraction,
            raw := rawAcc, annotations }, i)

/-- `parseValueOrNull`: empty side (EOF, `/`, `]`) → null; Ident `"P"` →
duration; otherwise date/datetime. -/
def parseValueOrNull (toks : List AnyToken) (i : Nat) :
    Except Err (Option ValueAst × Nat) := do
  if isAt toks i (.base .EOF) ∨ isAt toks i (.base .Slash)
      ∨ isAt toks i (.base .RBracket) then
    pure (none, i)
  else if isAt toks i (.base .Ident) ∧ (peek toks i).aval = ['P'] then do
    let (d, i) ← parseDuration toks i
    pure (some (.duration d), i)
  else do
    let (dt, i) ← parseDateTime toks i
    pure (some (.dateTime dt), i)

/-- Top-level `parseTemporal` of the `Parser` class: a range if the input
starts with or continues by `/`, otherwise a single value; EOF required. -/
def parseTemporal (toks : List AnyToken) : Except Err TemporalAst := do
  match tryEat toks 0 (.base .Slash) with
  | (some _, i) => do
    let (e, i) ← parseValueOrNull toks i
    let (_, _) ← eat toks i (.base .EOF)
    pure (.range none e)
  | (none, i) => do
    let (first, i) ← parseValueOrNull toks i
    match first with
    | none => .error (.parseError "Expected a value".data i)
    | some first =>
      match tryEat toks i (.base .Slash) with
      | (some _, i) => do
        let (second, i) ← parseValueOrNull toks i
        let (_, _) ← eat toks i (.base .EOF)
        pure (.range (some first) second)
      | (none, i) => do
        let (_, _) ← eat toks i (.base .EOF)
        pure (.value first)

end Parser

/-- parser.ts public `parseTemporal`: lex → fuse → parse. -/
def parseTemporal (src : String) : Except Err TemporalAst := do
  let raw ← lexTemporal src.data
  let toks := combineTimezoneOffsets (raw.map AnyToken.raw)
  Parser.parseTemporal toks

/-! ## Serializer (stringify.ts) -/

/-- Join string parts with a separator (JS `Array.prototype.join`). -/
def joinSep (sep : Char) : List (List Char) → List Char
  | [] => []
  | [p] => p
  | p :: ps => p ++ sep :: joinSep sep ps

/-- `stringifyDate`: year padded to at least 4 digits, optional 2-digit
month/day, dash-joined. -/
def stringifyDate (date : DateAst) : List Char :=
  let parts := [padStart (intToChars date.year) 4 '0']
  let parts := match date.month with
    | none => parts
    | some m =>
      let parts := parts ++ [padStart (intToChars m) 2 '0']
      match date.day with
      | none => parts
      | some d => parts ++ [padStart (intToChars d) 2 '0']
  joinSep '-' parts

/-- `stringifyTime`: `HH:MM`, optional `:SS` with optional `.fraction`. -/
def stringifyTime (time : TimeAst) : List Char :=
  let parts := [padStart (intToChars time.hour) 2 '0',
                padStart (intToChars time.minute) 2 '0']
  let parts := match time.second with
    | none => parts
    | some s =>
      let secondStr := padStart (intToChars s) 2 '0'
      let secondStr := match time.fraction with
        | none => secondStr
        | some f => secondStr ++ '.' :: f
      parts ++ [secondStr]
  joinSep ':' parts

/-- `stringifyOffset`: `Z` for UtcOffset; canonical `±HH:MM` (2-digit
padded) for NumericOffset, regardless of the stored raw text. -/
def stringifyOffset (offset : OffsetAst) : List Char :=
  match offset with
  | .utcOffset => ['Z']
  | .numericOffset sign hours minutes _raw =>
    sign :: padStart (intToChars hours) 2 '0' ++ ':' :: padStart (intToChars minutes) 2 '0'

/-- `stringifyTimeZone`: `[id]`, `[!id]` if critical. -/
def stringifyTimeZone (timeZone : TimeZoneAst) : List Char :=
  '[' :: (if timeZone.critical then '!' :: timeZone.id else timeZone.id) ++ [']']

/-- `stringifyAnnotation`: the stored raw text wrapped in brackets. -/
def stringifyAnnotation (a : AnnotationAst) : List Char :=
  '[' :: a.raw ++ [']']

/-- `stringifyDateTime`. -/
def stringifyDateTime (dateTime : DateTimeAst) : List Char :=
  let result := stringifyDate dateTime.date
  let result := match dateTime.time with
    | none => result
    | some t => result ++ 'T' :: stringifyTime t
  let result := match dateTime.offset with
    | none => result
    | some o => result ++ stringifyOffset o
  let result := match dateTime.timeZone with
    | none => result
    | some tz => result ++ stringifyTimeZone tz
  dateTime.annotations.foldl (fun acc a => acc ++ stringifyAnnotation a) result

/-- `stringifyDuration`: always reconstructed from the component fields (a
field present with value zero is emitted; an absent field is omitted), then
trailing annotations. -/
def stringifyDuration (duration : DurationAst) : List Char :=
  let result := ['P']
  let result := match duration.years with
    | none => result
    | some y => result ++ intToChars y ++ ['Y']
  let result := match duration.months with
    | none => result
    | some m => result ++ intToChars m ++ ['M']
  let result := match duration.weeks with
    | none => result
    | some w => result ++ intToChars w ++ ['W']
  let result := match duration.days with
    | none => result
    | some d => result ++ intToChars d ++ ['D']
  let hasTimePart := duration.hours.isSome ∨ duration.minutes.isSome
    ∨ duration.seconds.isSome
  let result :=
    if hasTimePart then
      let result := result ++ ['T']
      let result := match duration.hours with
        | none => result
        | some h => result ++ intToChars h ++ ['H']
      let result := match duration.minutes with
        | none => result
        | some m => result ++ intToChars m ++ ['M']
      match duration.seconds with
      | none => result
      | some s =>
        let result := result ++ intToChars s
        let result := match duration.secondsFraction with
          | some f => if f.length > 0 then result ++ '.' :: f else result
          | none => result
        result ++ ['S']
    else result
  duration.annotations.foldl (fun acc a => acc ++ stringifyAnnotation a) result

/-- `stringifyRange`: `start/end` with empty sides for open ranges. -/
def stringifyRange (start stop : Option ValueAst) : List Char :=
  let side := fun (v : Option ValueAst) => match v with
    | none => []
    | some (.duration d) => stringifyDuration d
    | some (.dateTime dt) => stringifyDateTime dt
  side start ++ '/' :: side stop

/-- `stringifyTemporal`: dispatch on the AST kind. -/
def stringifyTemporal (ast : TemporalAst) : List Char :=
  match ast with
  | .range s e => stringifyRange s e
  | .value (.duration d) => stringifyDuration d
  | .value (.dateTime dt) => stringifyDateTime dt

/-! ## Auxiliary definitions for the claims -/

/-- Canonical `±HH:MM` offset text for given components (2-digit padded). -/
def offCanonTxt (sg : Char) (h m : Nat) : List Char :=
  sg :: padStart (natToChars h) 2 '0' ++ ':' :: padStart (natToChars m) 2 '0'

/-- Stated from the spec's words: a bracket group looks like a timezone id
when its critical-stripped content contains no `'='` and either contains
`'/'` or starts with `"Etc/"`. -/
def specLikelyTzId (raw : List Char) (critical : Bool) : Bool :=
  let content := if critical then raw.drop 1 else raw
  !containsChar '=' content
    && (containsChar '/' content || startsWithChars "Etc/".data content)

/-- Timezone node built from a bracket group (critical flag preserved,
leading `'!'` stripped from the id). -/
def specTzOf (g : Parser.BracketGroup) : TimeZoneAst :=
  { id := if g.critical then g.raw.drop 1 else g.raw, critical := g.critical }

/-- Annotation node built from a bracket group. -/
def specAnnOf (g : Parser.BracketGroup) : AnnotationAst :=
  { raw := g.raw, critical := g.critical, pairs := g.pairs }

/-- Stated from the spec's words (first-match-wins disambiguation): the
first group that looks like a timezone id becomes the `timeZone`; every
other group becomes an annotation, in source order. -/
def specFirstMatch (gs : List Parser.BracketGroup) :
    Option TimeZoneAst × List AnnotationAst :=
  match gs.span (fun g => !specLikelyTzId g.raw g.critical) with
  | (pre, []) => (none, pre.map specAnnOf)
  | (pre, tzg :: post) => (some (specTzOf tzg), (pre ++ post).map specAnnOf)

/-- Accumulator form of `specFirstMatch`, mirroring the loop state. -/
def specFirstMatchAcc (timeZone : Option TimeZoneAst)
    (annotations : List AnnotationAst) (gs : List Parser.BracketGroup) :
    Option TimeZoneAst × List AnnotationAst :=
  match gs with
  | [] => (timeZone, annotations)
  | g :: gs =>
    match timeZone with
    | none =>
      if specLikelyTzId g.raw g.critical then
        specFirstMatchAcc (some (specTzOf g)) annotations gs
      else
        specFirstMatchAcc none (annotations ++ [specAnnOf g]) gs
    | some tz => specFirstMatchAcc (some tz) (annotations ++ [specAnnOf g]) gs

/-- The sequence of bracket groups at a cursor position: iterate
`parseBracketGroup` while the cursor is at `[`, collecting the groups (and
the final cursor), with the same fuel discipline as the bracket loops. -/
def bracketGroupsFrom (toks : List AnyToken) (fuel : Nat) (i : Nat) :
    Except Err (List Parser.BracketGroup × Nat) :=
  match fuel with
  | 0 => .error (.parseError fuelMsg i)
  | fuel + 1 =>
    if Parser.isAt toks i (.base .LBracket) then do
      let (g, i) ← Parser.parseBracketGroup toks i
      let (gs, i) ← bracketGroupsFrom toks fuel i
      pure (g :: gs, i)
    else pure ([], i)

/-- The seven duration fields. -/
inductive DurField where
  | years | months | weeks | days | hours | minutes | seconds
deriving DecidableEq, Repr

/-- The unit table of `parseDuration`: which field a one-letter designator
feeds, depending on whether the `T` marker has been passed. -/
def durUnitField (inTime : Bool) (unit : List Char) : Option DurField :=
  if !inTime then
    if unit = ['Y'] then some .years
    else if unit = ['M'] then some .months
    else if unit = ['W'] then some .weeks
    else if unit = ['D'] then some .days
    else none
  else
    if unit = ['H'] then some .hours
    else if unit = ['M'] then some .minutes
    else if unit = ['S'] then some .seconds
    else none

/-- Read a duration accumulator field. -/
def Parser.DurFields.get (dur : Parser.DurFields) : DurField → Option Int
  | .years => dur.years
  | .months => dur.months
  | .weeks => dur.weeks
  | .days => dur.days
  | .hours => dur.hours
  | .minutes => dur.minutes
  | .seconds => dur.seconds

/-- Sum a value into a duration accumulator field: the new value is the
previously accumulated value (0 when the field was absent) plus `n`. -/
def addDurField (dur : Parser.DurFields) (f : DurField) (n : Int) : Parser.DurFields :=
  match f with
  | .years => { dur with years := some ((dur.years.getD 0) + n) }
  | .months => { dur with months := some ((dur.months.getD 0) + n) }
  | .weeks => { dur with weeks := some ((dur.weeks.getD 0) + n) }
  | .days => { dur with days := some ((dur.days.getD 0) + n) }
  | .hours => { dur with hours := some ((dur.hours.getD 0) + n) }
  | .minutes => { dur with minutes := some ((dur.minutes.getD 0) + n) }
  | .seconds => { dur with seconds := some ((dur.seconds.getD 0) + n) }

/-! ## Helper lemmas -/

theorem exceptBind_ok {ε α β : Type} (a : α) (f : α → Except ε β) :
    (Except.ok a >>= f : Except ε β) = f a := rfl

theorem exceptBind_error {ε α β : Type} (e : ε) (f : α → Except ε β) :
    (Except.error e >>= f : Except ε β) = .error e := rfl

theorem exceptMap_ok {ε α β : Type} (a : α) (f : α → β) :
    (Except.map f (Except.ok a) : Except ε β) = .ok (f a) := rfl

theorem exceptMap_error {ε α β : Type} (e : ε) (f : α → β) :
    (Except.map f (Except.error e) : Except ε β) = .error e := rfl

theorem exceptMap_pure {ε α β : Type} (a : α) (f : α → β) :
    (Except.map f (pure a : Except ε α) : Except ε β) = .ok (f a) := rfl

theorem exceptBind_pure {ε α β : Type} (a : α) (f : α → Except ε β) :
    ((pure a : Except ε α) >>= f) = f a := rfl

theorem containsChar_append_cons (sep : Char) (a b : List Char) :
    containsChar sep (a ++ sep :: b) = true := by
  induction a with
  | nil => simp [containsChar]
  | cons c a ih =>
    simp only [containsChar, List.cons_append, List.any_cons] at ih ⊢
    simp [ih]

theorem splitOnChar_not_contains (sep : Char) (l : List Char)
    (h : containsChar sep l = false) : splitOnChar sep l = [l] := by
  induction l with
  | nil => rfl
  | cons c rest ih =>
    simp only [containsChar, List.any_cons, Bool.or_eq_false_iff,
      decide_eq_false_iff_not] at h
    simp [splitOnChar, ih (by simpa [containsChar] using h.2), h.1]

theorem splitOnChar_append_sep (sep : Char) (a b : List Char)
    (h : containsChar sep a = false) :
    splitOnChar sep (a ++ sep :: b) = a :: splitOnChar sep b := by
  induction a with
  | nil =>
    simp only [List.nil_append, splitOnChar]
    match hb : splitOnChar sep b with
    | [] => simp
    | p :: ps => simp
  | cons c a ih =>
    simp only [containsChar, List.any_cons, Bool.or_eq_false_iff,
      decide_eq_false_iff_not] at h
    have ih' := ih (by simpa [containsChar] using h.2)
    simp only [List.cons_append, splitOnChar, List.append_eq]
    rw [ih']
    simp [h.1]

/-- Evaluation of `parseOffset` on the colon-separated shape
`sign hText ':' mText`, for any numeric texts (no digit-count requirement):
the result is determined by the converted hour/minute values and the range
checks. -/
theorem parseOffset_colon_eval (sg : Char) (hT mT : List Char) (pos : Nat)
    (hsg : sg = '+' ∨ sg = '-')
    (hh : containsChar ':' hT = false)
    (hm : containsChar ':' mT = false)
    (h m : Int)
    (hth : toInt hT "offset hours".data pos = .ok h)
    (htm : toInt mT "offset minutes".data pos = .ok m) :
    parseOffset (sg :: hT ++ ':' :: mT) pos =
      if h < 0 ∨ h > MAX_OFFSET_HOURS then
        .error (.parseError (offsetHoursRangeMsg h) pos)
      else if m < 0 ∨ m > MAX_MINUTES then
        .error (.parseError (offsetMinutesRangeMsg m) pos)
      else
        .ok (.numericOffset sg h m (sg :: hT ++ ':' :: mT)) := by
  have hsign : ¬(sg ≠ '+' ∧ sg ≠ '-') := by
    rcases hsg with h' | h' <;> simp [h']
  have hlen : (hT ++ ':' :: mT).length ≠ 0 := by simp
  have hcontains : containsChar ':' (hT ++ ':' :: mT) = true :=
    containsChar_append_cons ':' hT mT
  have hsplit : splitOnChar ':' (hT ++ ':' :: mT) = [hT, mT] := by
    rw [splitOnChar_append_sep ':' hT mT hh, splitOnChar_not_contains ':' mT hm]
  simp only [List.cons_append] at *
  simp only [parseOffset, hsign, if_false, hlen, hcontains, if_true, hsplit]
  have h2 : ¬([hT, mT].length ≠ 2) := by simp
  rw [if_neg h2]
  simp only [List.getD_cons_zero, List.getD_cons_succ, hth, htm, exceptBind_ok]
  rfl

theorem exceptBind_eq_ok {ε α β : Type} {x : Except ε α} {f : α → Except ε β} {b : β} :
    (x >>= f) = .ok b ↔ ∃ a, x = .ok a ∧ f a = .ok b := by
  cases x with
  | ok a => simp [exceptBind_ok]
  | error e => simp [exceptBind_error]

/-- Every successful result of `parseOffset` is a NumericOffset: the function
has no code path constructing the UtcOffset variant. -/
theorem parseOffset_ok_numeric (s : List Char) (pos : Nat) (o : OffsetAst)
    (hok : parseOffset s pos = .ok o) :
    ∃ sg h m raw, o = .numericOffset sg h m raw := by
  cases s with
  | nil => simp [parseOffset] at hok
  | cons sign rest =>
    simp only [parseOffset] at hok
    have tail : ∀ (y : Int × Int),
        (if y.1 < 0 ∨ y.1 > MAX_OFFSET_HOURS then
            (Except.error (Err.parseError (offsetHoursRangeMsg y.1) pos) : Except Err OffsetAst)
          else if y.2 < 0 ∨ y.2 > MAX_MINUTES then
            .error (.parseError (offsetMinutesRangeMsg y.2) pos)
          else pure (.numericOffset sign y.1 y.2 (sign :: rest))) = .ok o →
        ∃ sg h m raw, o = .numericOffset sg h m raw := by
      intro y hy
      split at hy
      · simp at hy
      · split at hy
        · simp at hy
        · exact ⟨sign, y.1, y.2, sign :: rest, Except.ok.inj hy.symm⟩
    split at hok
    · simp at hok
    · split at hok
      · simp at hok
      · split at hok
        · split at hok
          · simp [exceptBind_error] at hok
          · rcases exceptBind_eq_ok.mp hok with ⟨h1, -, hok⟩
            rcases exceptBind_eq_ok.mp hok with ⟨m1, -, hok⟩
            rcases exceptBind_eq_ok.mp hok with ⟨y, -, hok⟩
            exact tail y hok
        · split at hok
          · rcases exceptBind_eq_ok.mp hok with ⟨h1, -, hok⟩
            rcases exceptBind_eq_ok.mp hok with ⟨m1, -, hok⟩
            rcases exceptBind_eq_ok.mp hok with ⟨y, -, hok⟩
            exact tail y hok
          · split at hok
            · rcases exceptBind_eq_ok.mp hok with ⟨h1, -, hok⟩
              rcases exceptBind_eq_ok.mp hok with ⟨y, -, hok⟩
              exact tail y hok
            · simp [exceptBind_error] at hok

/-! ## Claims -/

/-- C1: the spec (and the repository's own tests, README and CHANGELOG) say a
comma introduces fractional seconds exactly like a dot, but `parseTime` only
tries the Dot token for the fraction: the comma input is rejected with
`Expected EOF but got Comma` at the comma's token index, while the dot twin
parses with the fraction digits stored verbatim. -/
theorem parseTemporal_comma_fraction_rejected :
    parseTemporal "2025-01-12T10:30:45,123"
      = .error (.parseError "Expected EOF but got Comma".data 11) ∧
    parseTemporal "2025-01-12T10:30:45.123"
      = .ok (.value (.dateTime
          { date := { year := 2025, month := some 1, day := some 12 },
            time := some { hour := 10, minute := 30, second := some 45,
                           fraction := some "123".data } })) := by
  constructor
  · decide
  · decide

/-- C2: `stringifyTemporal ∘ parseTemporal` is the identity on the five
canonical-form witness strings of the spec. -/
theorem stringify_parse_roundtrip_canonical :
    (parseTemporal "2025-01-12T10:00:00+08:00[Asia/Singapore]").map stringifyTemporal
      = .ok "2025-01-12T10:00:00+08:00[Asia/Singapore]".data ∧
    (parseTemporal "P1Y2M3DT4H5M6S").map stringifyTemporal
      = .ok "P1Y2M3DT4H5M6S".data ∧
    (parseTemporal "2025-01-01/2025-12-31").map stringifyTemporal
      = .ok "2025-01-01/2025-12-31".data ∧
    (parseTemporal "/2025-12-31").map stringifyTemporal
      = .ok "/2025-12-31".data ∧
    (parseTemporal "2025-01-01/").map stringifyTemporal
      = .ok "2025-01-01/".data := by
  refine ⟨by decide, by decide, by decide, by decide, by decide⟩

/-- C3: `-00:00` parses to a NumericOffset with sign `-` and zero components
(never the UtcOffset variant), stringifies back to `-00:00`; `parseOffset`
can only ever produce the NumericOffset variant, and the serializer maps the
zero NumericOffset and UtcOffset to the distinct texts `-00:00` and `Z`. -/
theorem minus_zero_offset_preserved :
    parseTemporal "2025-01-12T10:00:00-00:00"
      = .ok (.value (.dateTime
          { date := { year := 2025, month := some 1, day := some 12 },
            time := some { hour := 10, minute := 0, second := some 0 },
            offset := some (.numericOffset '-' 0 0 "-00:00".data) })) ∧
    (parseTemporal "2025-01-12T10:00:00-00:00").map stringifyTemporal
      = .ok "2025-01-12T10:00:00-00:00".data ∧
    (∀ (s : List Char) (pos : Nat) (o : OffsetAst),
      parseOffset s pos = .ok o → ∃ sg h m raw, o = .numericOffset sg h m raw) ∧
    stringifyOffset (.numericOffset '-' 0 0 "-00:00".data) = "-00:00".data ∧
    stringifyOffset .utcOffset = "Z".data := by
  exact ⟨by decide, by decide, parseOffset_ok_numeric, by decide, by decide⟩

/-- C3 witness: the NumericOffset-only fact applied at `+08:00`. -/
theorem minus_zero_offset_preserved_witness :
    ∃ sg h m raw, (OffsetAst.numericOffset '+' 8 0 "+08:00".data) = .numericOffset sg h m raw :=
  minus_zero_offset_preserved.2.2.1 "+08:00".data 0
    (.numericOffset '+' 8 0 "+08:00".data) (by decide)

/-- C5: `stringifyOffset` renders a NumericOffset in the canonical
`sign ++ HH ++ ':' ++ MM` shape independently of the stored raw text, and the
compact `+0530` and short `+09` inputs re-stringify to `+05:30` / `+09:00`
through the full pipeline. -/
theorem stringifyOffset_canonical_normalization :
    (∀ (sg : Char) (h m : Int) (raw raw' : List Char),
      stringifyOffset (.numericOffset sg h m raw)
        = stringifyOffset (.numericOffset sg h m raw')) ∧
    (∀ (sg : Char) (h m : Int) (raw : List Char),
      stringifyOffset (.numericOffset sg h m raw)
        = sg :: padStart (intToChars h) 2 '0' ++ ':' :: padStart (intToChars m) 2 '0') ∧
    (parseTemporal "2025-01-12T10:00:00+0530").map stringifyTemporal
      = .ok "2025-01-12T10:00:00+05:30".data ∧
    (parseTemporal "2025-01-12T10:00:00+09").map stringifyTemporal
      = .ok "2025-01-12T10:00:00+09:00".data := by
  refine ⟨fun _ _ _ _ _ => rfl, fun _ _ _ _ => rfl, by decide, by decide⟩

/-- C9 counterexample: the claim says `toInt` raises a `ParseError` for all
texts written with a decimal point, but `"1.0"` has a decimal point and is
accepted with value 1 (the host parser evaluates it to the finite integer 1). -/
theorem toInt_decimal_point_accepted :
    toInt "1.0".data "test".data 0 = .ok 1 ∧
    toInt "1.5e1".data "test".data 0 = .ok 15 := by
  constructor
  · decide
  · decide

/-- C9 (amended): `toInt` accepts exactly the texts whose host numeric value
is a finite integer — it rejects `NaN`, `Infinity` and decimal texts with
non-integral value such as `"1.5"`, accepts decimal texts with integral value
such as `"1.0"`, and accepts sign prefixes and exponent/radix notations that
evaluate to finite integers. -/
theorem toInt_finite_integral_only :
    toInt "1.5".data "test".data 5
      = .error (.parseError "Invalid integer for test: \"1.5\"".data 5) ∧
    toInt "0.1".data "test".data 0
      = .error (.parseError "Invalid integer for test: \"0.1\"".data 0) ∧
    toInt "3.14".data "test".data 0
      = .error (.parseError "Invalid integer for test: \"3.14\"".data 0) ∧
    toInt "NaN".data "test".data 0
      = .error (.parseError "Invalid integer for test: \"NaN\"".data 0) ∧
    toInt "Infinity".data "test".data 0
      = .error (.parseError "Invalid integer for test: \"Infinity\"".data 0) ∧
    toInt "-Infinity".data "test".data 0
      = .error (.parseError "Invalid integer for test: \"-Infinity\"".data 0) ∧
    toInt "abc".data "test".data 0
      = .error (.parseError "Invalid integer for test: \"abc\"".data 0) ∧
    toInt "123".data "test".data 0 = .ok 123 ∧
    toInt "007".data "test".data 0 = .ok 7 ∧
    toInt "-123".data "test".data 0 = .ok (-123) ∧
    toInt "+5".data "test".data 0 = .ok 5 ∧
    toInt "1e5".data "test".data 0 = .ok 100000 ∧
    toInt "1E10".data "test".data 0 = .ok 10000000000 ∧
    toInt "0x10".data "test".data 0 = .ok 16 ∧
    toInt "0o10".data "test".data 0 = .ok 8 ∧
    toInt "0b10".data "test".data 0 = .ok 2 ∧
    toInt "1.0".data "test".data 0 = .ok 1 := by
  decide

/-- Two-digit zero-padded texts of numbers below 100 contain no colon, and
convert back to their value under `toInt` with either offset label. -/
theorem toInt_pad2_eval : ∀ n : Nat, n < 100 →
    containsChar ':' (padStart (natToChars n) 2 '0') = false ∧
    toInt (padStart (natToChars n) 2 '0') "offset hours".data 0 = .ok n ∧
    toInt (padStart (natToChars n) 2 '0') "offset minutes".data 0 = .ok n := by
  decide

/-- C10: `parseOffset` imposes no digit-count requirement on the
colon-separated shape: any `sign H : M` text whose parts convert to in-range
values succeeds, storing the original text as `raw`; in particular `"+8:5"`
yields sign `+`, hours 8, minutes 5, raw `"+8:5"`. -/
theorem parseOffset_colon_any_digit_count :
    (∀ (sg : Char) (hT mT : List Char) (pos : Nat) (h m : Int),
      (sg = '+' ∨ sg = '-') →
      containsChar ':' hT = false → containsChar ':' mT = false →
      toInt hT "offset hours".data pos = .ok h →
      toInt mT "offset minutes".data pos = .ok m →
      0 ≤ h → h ≤ 14 → 0 ≤ m → m ≤ 59 →
      parseOffset (sg :: hT ++ ':' :: mT) pos
        = .ok (.numericOffset sg h m (sg :: hT ++ ':' :: mT))) ∧
    parseOffset "+8:5".data = .ok (.numericOffset '+' 8 5 "+8:5".data) := by
  constructor
  · intro sg hT mT pos h m hsg hcH hcM htH htM hh0 hh14 hm0 hm59
    rw [parseOffset_colon_eval sg hT mT pos hsg hcH hcM h m htH htM]
    rw [if_neg (by rw [MAX_OFFSET_HOURS]; omega), if_neg (by rw [MAX_MINUTES]; omega)]
  · decide

/-- C10 witness: the general colon-shape fact applied at `"+8:5"`. -/
theorem parseOffset_colon_any_digit_count_witness :
    parseOffset ('+' :: "8".data ++ ':' :: "5".data) 0
      = .ok (.numericOffset '+' 8 5 ('+' :: "8".data ++ ':' :: "5".data)) :=
  parseOffset_colon_any_digit_count.1 '+' "8".data "5".data 0 8 5
    (Or.inl rfl) (by decide) (by decide) (by decide) (by decide)
    (by decide) (by decide) (by decide) (by decide)

/-- C8: `parseOffset` accepts hours 0–14 and minutes 0–59 and rejects values
outside with the dedicated range errors: `+15:00`/`-15:00` raise the
hours-range error while `+14:00`/`-12:00` succeed; every in-range `±HH:MM`
text parses successfully, and out-of-range two-digit hours (15–99, the
representable two-digit values) or minutes (60–99) raise the corresponding
hours-range and minutes-range errors. -/
theorem parseOffset_range_validation :
    parseOffset "+15:00".data = .error (.parseError (offsetHoursRangeMsg 15) 0) ∧
    parseOffset "-15:00".data = .error (.parseError (offsetHoursRangeMsg 15) 0) ∧
    parseOffset "+14:00".data = .ok (.numericOffset '+' 14 0 "+14:00".data) ∧
    parseOffset "-12:00".data = .ok (.numericOffset '-' 12 0 "-12:00".data) ∧
    (∀ (sg : Char) (h m : Nat), (sg = '+' ∨ sg = '-') → h ≤ 14 → m ≤ 59 →
      parseOffset (offCanonTxt sg h m)
        = .ok (.numericOffset sg h m (offCanonTxt sg h m))) ∧
    (∀ (sg : Char) (h m : Nat), (sg = '+' ∨ sg = '-') →
      15 ≤ h → h ≤ 99 → m ≤ 59 →
      parseOffset (offCanonTxt sg h m)
        = .error (.parseError (offsetHoursRangeMsg h) 0)) ∧
    (∀ (sg : Char) (h m : Nat), (sg = '+' ∨ sg = '-') →
      h ≤ 14 → 60 ≤ m → m ≤ 99 →
      parseOffset (offCanonTxt sg h m)
        = .error (.parseError (offsetMinutesRangeMsg m) 0)) := by
  have key : ∀ (sg : Char) (h m : Nat), (sg = '+' ∨ sg = '-') → h ≤ 99 → m ≤ 99 →
      parseOffset (offCanonTxt sg h m) =
        if (h : Int) < 0 ∨ (h : Int) > MAX_OFFSET_HOURS then
          .error (.parseError (offsetHoursRangeMsg h) 0)
        else if (m : Int) < 0 ∨ (m : Int) > MAX_MINUTES then
          .error (.parseError (offsetMinutesRangeMsg m) 0)
        else
          .ok (.numericOffset sg h m (offCanonTxt sg h m)) := by
    intro sg h m hsg hh hm
    have ph := toInt_pad2_eval h (by omega)
    have pm := toInt_pad2_eval m (by omega)
    exact parseOffset_colon_eval sg _ _ 0 hsg ph.1 pm.1 h m ph.2.1 pm.2.2
  refine ⟨by decide, by decide, by decide, by decide, ?_, ?_, ?_⟩
  · intro sg h m hsg hh hm
    rw [key sg h m hsg (by omega) (by omega),
      if_neg (by rw [MAX_OFFSET_HOURS]; omega), if_neg (by rw [MAX_MINUTES]; omega)]
  · intro sg h m hsg hh15 hh hm
    rw [key sg h m hsg (by omega) (by omega),
      if_pos (by rw [MAX_OFFSET_HOURS]; omega)]
  · intro sg h m hsg hh hm60 hm
    rw [key sg h m hsg (by omega) (by omega),
      if_neg (by rw [MAX_OFFSET_HOURS]; omega), if_pos (by rw [MAX_MINUTES]; omega)]

/-- C8 witness: the three quantified parts applied at `+08:30`, `-15:00` and
`+00:60`. -/
theorem parseOffset_range_validation_witness :
    parseOffset (offCanonTxt '+' 8 30)
      = .ok (.numericOffset '+' 8 30 (offCanonTxt '+' 8 30)) ∧
    parseOffset (offCanonTxt '-' 15 0)
      = .error (.parseError (offsetHoursRangeMsg 15) 0) ∧
    parseOffset (offCanonTxt '+' 0 60)
      = .error (.parseError (offsetMinutesRangeMsg 60) 0) :=
  ⟨parseOffset_range_validation.2.2.2.2.1 '+' 8 30 (Or.inl rfl) (by decide) (by decide),
   parseOffset_range_validation.2.2.2.2.2.1 '-' 15 0 (Or.inr rfl) (by decide) (by decide) (by decide),
   parseOffset_range_validation.2.2.2.2.2.2 '+' 0 60 (Or.inl rfl) (by decide) (by decide) (by decide)⟩

/-- Every successful `parseBracketGroup` result is built by
`mkBracketGroup`. -/
theorem parseBracketGroup_shape (toks : List AnyToken) (i : Nat)
    (g : Parser.BracketGroup) (i' : Nat)
    (h : Parser.parseBracketGroup toks i = .ok (g, i')) :
    ∃ critical parts, g = Parser.mkBracketGroup critical parts := by
  simp only [Parser.parseBracketGroup] at h
  rcases exceptBind_eq_ok.mp h with ⟨x, -, h⟩
  obtain ⟨x1, x2⟩ := x
  rcases htE : Parser.tryEat toks x2 (.base .Exclamation) with ⟨excl, i2⟩
  rw [htE] at h
  dsimp only at h
  rcases exceptBind_eq_ok.mp h with ⟨y, -, h⟩
  obtain ⟨parts, i3⟩ := y
  dsimp only at h
  rcases exceptBind_eq_ok.mp h with ⟨z, -, h⟩
  obtain ⟨z1, i4⟩ := z
  dsimp only at h
  have hp := Except.ok.inj h
  exact ⟨excl.isSome, parts, (Prod.ext_iff.mp hp).1.symm⟩

/-- For groups built by `mkBracketGroup`, the code's timezone-id heuristic
coincides with the spec's wording. -/
theorem mkBracketGroup_likely (critical : Bool) (parts : List (List Char)) :
    (Parser.mkBracketGroup critical parts).isLikelyTzId
      = specLikelyTzId (Parser.mkBracketGroup critical parts).raw
          (Parser.mkBracketGroup critical parts).critical := rfl

/-- Closed form of the spec accumulator once a timezone has been found:
all remaining groups become annotations in order. -/
theorem specFirstMatchAcc_some (gs : List Parser.BracketGroup)
    (tz : TimeZoneAst) (anns : List AnnotationAst) :
    specFirstMatchAcc (some tz) anns gs = (some tz, anns ++ gs.map specAnnOf) := by
  induction gs generalizing anns with
  | nil => simp [specFirstMatchAcc]
  | cons g gs ih => simp [specFirstMatchAcc, ih]

/-- The spec accumulator started empty computes `specFirstMatch`. -/
theorem specFirstMatchAcc_none (gs : List Parser.BracketGroup)
    (anns : List AnnotationAst) :
    specFirstMatchAcc none anns gs
      = ((specFirstMatch gs).1, anns ++ (specFirstMatch gs).2) := by
  induction gs generalizing anns with
  | nil => simp [specFirstMatchAcc, specFirstMatch]
  | cons g gs ih =>
    by_cases hg : specLikelyTzId g.raw g.critical
    · simp only [specFirstMatchAcc, hg, if_true, specFirstMatchAcc_some,
        specFirstMatch, List.span_eq_take_drop, List.takeWhile_cons, hg,
        Bool.not_true, List.dropWhile_cons]
      simp [hg]
    · simp only [specFirstMatchAcc, hg, if_false, ih,
        specFirstMatch, List.span_eq_take_drop, List.takeWhile_cons,
        List.dropWhile_cons, hg, Bool.not_false]
      simp only [if_true]
      rcases hdw : gs.dropWhile (fun g => !specLikelyTzId g.raw g.critical) with _ | ⟨tzg, post⟩
      · simp [hdw, List.append_assoc]
      · simp [hdw, List.append_assoc]

/-- The imperative bracket loop of `parseDateTime` equals the spec
accumulator over the group sequence, for every fuel and start state. -/
theorem dateTimeBrackets_eq_spec (toks : List AnyToken) :
    ∀ (fuel : Nat) (i : Nat) (tz : Option TimeZoneAst) (anns : List AnnotationAst),
    Parser.dateTimeBrackets toks fuel i tz anns
      = (bracketGroupsFrom toks fuel i).map (fun p => (specFirstMatchAcc tz anns p.1, p.2)) := by
  intro fuel
  induction fuel with
  | zero => intro i tz anns; rfl
  | succ fuel ih =>
    intro i tz anns
    simp only [Parser.dateTimeBrackets, bracketGroupsFrom]
    by_cases hat : Parser.isAt toks i (.base .LBracket)
    · simp only [hat, if_true]
      cases hg : Parser.parseBracketGroup toks i with
      | error e => simp [exceptBind_error, exceptMap_error]
      | ok gi =>
        obtain ⟨g, i'⟩ := gi
        simp only [exceptBind_ok]
        obtain ⟨critical, parts, rfl⟩ := parseBracketGroup_shape toks i g i' hg
        cases hX : bracketGroupsFrom toks fuel i' with
        | error e =>
          by_cases htz : (Parser.mkBracketGroup critical parts).isLikelyTzId
          · cases tz with
            | none => simp [htz, ih, hX, exceptBind_error, exceptMap_error]
            | some t => simp [htz, ih, hX, exceptBind_error, exceptMap_error]
          · simp [htz, ih, hX, exceptBind_error, exceptMap_error]
        | ok p =>
          obtain ⟨gs, i2⟩ := p
          have hlik := mkBracketGroup_likely critical parts
          by_cases htz : (Parser.mkBracketGroup critical parts).isLikelyTzId
          · have hspec : specLikelyTzId (Parser.mkBracketGroup critical parts).raw
                (Parser.mkBracketGroup critical parts).critical = true := hlik ▸ htz
            cases tz with
            | none =>
              simp only [Option.isNone_none, true_and, htz, if_true, ih, hX,
                exceptBind_ok, exceptMap_ok, exceptMap_pure]
              simp only [specFirstMatchAcc, hspec, if_true]
              rfl
            | some t =>
              simp only [Option.isNone_some, false_and, if_false, ih, hX,
                exceptBind_ok, exceptMap_ok, exceptMap_pure]
              simp only [specFirstMatchAcc]
              rfl
          · have hspec : specLikelyTzId (Parser.mkBracketGroup critical parts).raw
                (Parser.mkBracketGroup critical parts).critical = false := by
              rw [← hlik]; simpa using htz
            have hcond : ¬(tz.isNone ∧ (Parser.mkBracketGroup critical parts).isLikelyTzId = true) := by
              simp [htz]
            simp only [hcond, if_false, ih, hX, exceptBind_ok, exceptMap_ok, exceptMap_pure]
            cases tz with
            | none =>
              simp only [specFirstMatchAcc, hspec, Bool.false_eq_true, if_false]
              rfl
            | some t =>
              simp only [specFirstMatchAcc]
              rfl
    · simp only [hat, if_false]
      rfl

/-- C6: the bracket loop of `parseDateTime` implements first-match-wins
disambiguation: starting from no timezone and no annotations, it returns the
first group (in source order) whose critical-stripped content contains no
`'='` and contains `'/'` or starts with `"Etc/"` as the `timeZone` (critical
flag preserved), and every other group as an annotation in source order — for
every token list, fuel and position; concretely,
`2025-01-07T10:00:00[Asia/Singapore][America/New_York]` gets timezone id
`Asia/Singapore` and `America/New_York` as an annotation. -/
theorem dateTime_bracket_first_match :
    (∀ (toks : List AnyToken) (fuel i : Nat),
      Parser.dateTimeBrackets toks fuel i none []
        = (bracketGroupsFrom toks fuel i).map (fun p => (specFirstMatch p.1, p.2))) ∧
    parseTemporal "2025-01-07T10:00:00[Asia/Singapore][America/New_York]"
      = .ok (.value (.dateTime
          { date := { year := 2025, month := some 1, day := some 7 },
            time := some { hour := 10, minute := 0, second := some 0 },
            timeZone := some { id := "Asia/Singapore".data, critical := false },
            annotations := [{ raw := "America/New_York".data, critical := false,
                              pairs := [("America/New_York".data, .flagTrue)] }] })) := by
  constructor
  · intro toks fuel i
    rw [dateTimeBrackets_eq_spec toks fuel i none []]
    cases hX : bracketGroupsFrom toks fuel i with
    | error e => rfl
    | ok p =>
      simp only [exceptMap_ok]
      rw [specFirstMatchAcc_none p.1 []]
      simp
  · decide

/-- One accumulating iteration of the duration designator loop: with the
cursor on a Number token directly followed by an Ident unit that is valid for
the current part (date vs. time), the loop sums the converted value into the
matching field — previous value (0 when absent) plus the new value — and
continues behind the pair. -/
theorem durLoop_accumulates (toks : List AnyToken) (fuel i : Nat) (inTime : Bool)
    (dur : Parser.DurFields) (rawAcc : List Char) (f : DurField) (n : Int)
    (hNum : (Parser.peek toks i).atype = .base .Number)
    (hIdent : (Parser.peek toks (i+1)).atype = .base .Ident)
    (hf : durUnitField inTime (Parser.peek toks (i+1)).aval = some f)
    (hn : toInt (Parser.peek toks i).aval "duration number".data (i+2) = .ok n) :
    Parser.durLoop toks (fuel+1) i inTime dur rawAcc
      = Parser.durLoop toks fuel (i+2) inTime (addDurField dur f n)
          (rawAcc ++ (Parser.peek toks i).aval ++ (Parser.peek toks (i+1)).aval) := by
  have hEOF : Parser.isAt toks i (.base .EOF) = false := by simp [Parser.isAt, hNum]
  have hSlash : Parser.isAt toks i (.base .Slash) = false := by simp [Parser.isAt, hNum]
  have hLB : Parser.isAt toks i (.base .LBracket) = false := by simp [Parser.isAt, hNum]
  have hT : Parser.tryEat toks i (.base .T) = (none, i) := by
    simp [Parser.tryEat, Parser.isAt, hNum]
  have hNumEat : Parser.tryEat toks i (.base .Number) = (some (Parser.peek toks i), i+1) := by
    simp [Parser.tryEat, Parser.isAt, hNum]
  have hDot : Parser.tryEat toks (i+1) (.base .Dot) = (none, i+1) := by
    simp [Parser.tryEat, Parser.isAt, hIdent]
  have hUnit : Parser.eat toks (i+1) (.base .Ident) = .ok (Parser.peek toks (i+1), i+2) := by
    simp [Parser.eat, hIdent]
  simp only [Parser.durLoop, hEOF, hSlash, hLB, hT, hNumEat, hDot, hUnit, hn,
    Bool.false_eq_true, or_self, if_false, exceptBind_ok, exceptBind_pure]
  cases inTime with
  | false =>
    simp only [durUnitField, Bool.not_false, if_true, eq_self_iff_true] at hf
    split_ifs at hf with hY hM hW hD
    · injection hf with h; subst h; simp [hY, addDurField]
    · injection hf with h; subst h; simp [hY, hM, addDurField]
    · injection hf with h; subst h; simp [hY, hM, hW, addDurField]
    · injection hf with h; subst h; simp [hY, hM, hW, hD, addDurField]
  | true =>
    simp only [durUnitField, Bool.not_true, Bool.false_eq_true, if_false] at hf
    split_ifs at hf with hH hM hS
    · injection hf with h; subst h; simp [hH, addDurField]
    · injection hf with h; subst h; simp [hH, hM, addDurField]
    · injection hf with h; subst h; simp [hH, hM, hS, addDurField]

/-- C7: every `(Number, unit)` pair in duration parsing sums its value into
the matching field — previous accumulated value (0 when the field was
absent) plus the new value, for all seven fields via the unit table — rather
than overwriting or erroring; concretely `P1Y2Y` yields years 3, and
duplicate designators sum for all seven fields. -/
theorem duration_duplicate_designators_sum :
    (∀ (toks : List AnyToken) (fuel i : Nat) (inTime : Bool)
       (dur : Parser.DurFields) (rawAcc : List Char) (f : DurField) (n : Int),
      (Parser.peek toks i).atype = .base .Number →
      (Parser.peek toks (i+1)).atype = .base .Ident →
      durUnitField inTime (Parser.peek toks (i+1)).aval = some f →
      toInt (Parser.peek toks i).aval "duration number".data (i+2) = .ok n →
      Parser.durLoop toks (fuel+1) i inTime dur rawAcc
        = Parser.durLoop toks fuel (i+2) inTime (addDurField dur f n)
            (rawAcc ++ (Parser.peek toks i).aval ++ (Parser.peek toks (i+1)).aval)) ∧
    parseTemporal "P1Y2Y"
      = .ok (.value (.duration { years := some 3, raw := "P1Y2Y".data })) ∧
    parseTemporal "P1Y2Y3M4M1W2W5D6D"
      = .ok (.value (.duration
          { years := some 3, months := some 7, weeks := some 3,
            days := some 11, raw := "P1Y2Y3M4M1W2W5D6D".data })) ∧
    parseTemporal "PT1H2H3M4M5S6S"
      = .ok (.value (.duration
          { hours := some 3, minutes := some 7, seconds := some 11,
            raw := "PT1H2H3M4M5S6S".data })) := by
  refine ⟨fun toks fuel i inTime dur rawAcc f n hNum hIdent hf hn =>
    durLoop_accumulates toks fuel i inTime dur rawAcc f n hNum hIdent hf hn,
    by decide, by decide, by decide⟩

/-- C7 witness: the accumulation step applied to the tokens `2 Y EOF` with an
already-accumulated `years = 1`, giving `years = 1 + 2`. -/
theorem duration_duplicate_designators_sum_witness :
    Parser.durLoop
      [.raw ⟨.Number, ['2'], 0, 1⟩, .raw ⟨.Ident, ['Y'], 1, 2⟩, .raw ⟨.EOF, [], 2, 2⟩]
      1 0 false { years := some 1 } "P1Y".data
    = Parser.durLoop
      [.raw ⟨.Number, ['2'], 0, 1⟩, .raw ⟨.Ident, ['Y'], 1, 2⟩, .raw ⟨.EOF, [], 2, 2⟩]
      0 2 false { years := some (1 + 2) } ("P1Y".data ++ ['2'] ++ ['Y']) :=
  duration_duplicate_designators_sum.1
    [.raw ⟨.Number, ['2'], 0, 1⟩, .raw ⟨.Ident, ['Y'], 1, 2⟩, .raw ⟨.EOF, [], 2, 2⟩]
    0 0 false { years := some 1 } "P1Y".data .years 2
    (by decide) (by decide) (by decide) (by decide)

/-! ## Fuser idempotence (C4) -/

theorem fuseGo_zero (ctx l : List AnyToken) : fuseGo 0 ctx l = l := rfl

theorem fuseGo_nil (fuel : Nat) (ctx : List AnyToken) : fuseGo fuel ctx [] = [] := by
  cases fuel <;> rfl

theorem atype_mkFused4 (t n1 c n2 : AnyToken) :
    (mkFused4 t n1 c n2).atype = .TZOffset := rfl

theorem atype_mkFused2 (t n1 : AnyToken) : (mkFused2 t n1).atype = .TZOffset := rfl

theorem isSignTok_mkFused4 (t n1 c n2 : AnyToken) :
    isSignTok (mkFused4 t n1 c n2) = false := rfl

theorem isSignTok_mkFused2 (t n1 : AnyToken) : isSignTok (mkFused2 t n1) = false := rfl

theorem fuseGo_not_fusable (fuel : Nat) (ctx : List AnyToken) (t : AnyToken)
    (rest : List AnyToken) (hcond : ¬((isSignTok t && couldBeTzOffset ctx) = true)) :
    fuseGo (fuel + 1) ctx (t :: rest) = t :: fuseGo fuel (t :: ctx) rest := by
  simp only [fuseGo]
  rw [if_neg hcond]

theorem fuseGo_cons_nil (fuel : Nat) (ctx : List AnyToken) (t : AnyToken) :
    fuseGo (fuel + 1) ctx [t] = t :: fuseGo fuel (t :: ctx) [] := by
  by_cases hcond : (isSignTok t && couldBeTzOffset ctx) = true
  · simp only [fuseGo]
    rw [if_pos hcond]
  · exact fuseGo_not_fusable fuel ctx t [] hcond

theorem fuseGo_fused4 (fuel : Nat) (ctx : List AnyToken) (t n1 c n2 : AnyToken)
    (rest' : List AnyToken) (hcond : (isSignTok t && couldBeTzOffset ctx) = true)
    (h1 : n1.atype = .base .Number ∧ c.atype = .base .Colon ∧ n2.atype = .base .Number) :
    fuseGo (fuel + 1) ctx (t :: n1 :: c :: n2 :: rest')
      = mkFused4 t n1 c n2 :: fuseGo fuel (mkFused4 t n1 c n2 :: ctx) rest' := by
  simp only [fuseGo]
  rw [if_pos hcond, if_pos h1]

theorem fuseGo_fused2_long (fuel : Nat) (ctx : List AnyToken) (t n1 c n2 : AnyToken)
    (rest' : List AnyToken) (hcond : (isSignTok t && couldBeTzOffset ctx) = true)
    (h1 : ¬(n1.atype = .base .Number ∧ c.atype = .base .Colon ∧ n2.atype = .base .Number))
    (h2 : n1.atype = .base .Number ∧ (n1.aval.length = 2 ∨ n1.aval.length = 4)) :
    fuseGo (fuel + 1) ctx (t :: n1 :: c :: n2 :: rest')
      = mkFused2 t n1 :: fuseGo fuel (mkFused2 t n1 :: ctx) (c :: n2 :: rest') := by
  simp only [fuseGo]
  rw [if_pos hcond, if_neg h1, if_pos h2]

theorem fuseGo_raw_long (fuel : Nat) (ctx : List AnyToken) (t n1 c n2 : AnyToken)
    (rest' : List AnyToken) (hcond : (isSignTok t && couldBeTzOffset ctx) = true)
    (h1 : ¬(n1.atype = .base .Number ∧ c.atype = .base .Colon ∧ n2.atype = .base .Number))
    (h2 : ¬(n1.atype = .base .Number ∧ (n1.aval.length = 2 ∨ n1.aval.length = 4))) :
    fuseGo (fuel + 1) ctx (t :: n1 :: c :: n2 :: rest')
      = t :: fuseGo fuel (t :: ctx) (n1 :: c :: n2 :: rest') := by
  simp only [fuseGo]
  rw [if_pos hcond, if_neg h1, if_neg h2]

theorem fuseGo_fused2_one (fuel : Nat) (ctx : List AnyToken) (t n1 : AnyToken)
    (hcond : (isSignTok t && couldBeTzOffset ctx) = true)
    (h2 : n1.atype = .base .Number ∧ (n1.aval.length = 2 ∨ n1.aval.length = 4)) :
    fuseGo (fuel + 1) ctx [t, n1]
      = mkFused2 t n1 :: fuseGo fuel (mkFused2 t n1 :: ctx) [] := by
  simp only [fuseGo]
  rw [if_pos hcond, if_pos h2]

theorem fuseGo_raw_one (fuel : Nat) (ctx : List AnyToken) (t n1 : AnyToken)
    (hcond : (isSignTok t && couldBeTzOffset ctx) = true)
    (h2 : ¬(n1.atype = .base .Number ∧ (n1.aval.length = 2 ∨ n1.aval.length = 4))) :
    fuseGo (fuel + 1) ctx [t, n1] = t :: fuseGo fuel (t :: ctx) [n1] := by
  simp only [fuseGo]
  rw [if_pos hcond, if_neg h2]

theorem fuseGo_fused2_two (fuel : Nat) (ctx : List AnyToken) (t n1 c : AnyToken)
    (hcond : (isSignTok t && couldBeTzOffset ctx) = true)
    (h2 : n1.atype = .base .Number ∧ (n1.aval.length = 2 ∨ n1.aval.length = 4)) :
    fuseGo (fuel + 1) ctx [t, n1, c]
      = mkFused2 t n1 :: fuseGo fuel (mkFused2 t n1 :: ctx) [c] := by
  simp only [fuseGo]
  rw [if_pos hcond, if_pos h2]

theorem fuseGo_raw_two (fuel : Nat) (ctx : List AnyToken) (t n1 c : AnyToken)
    (hcond : (isSignTok t && couldBeTzOffset ctx) = true)
    (h2 : ¬(n1.atype = .base .Number ∧ (n1.aval.length = 2 ∨ n1.aval.length = 4))) :
    fuseGo (fuel + 1) ctx [t, n1, c] = t :: fuseGo fuel (t :: ctx) [n1, c] := by
  simp only [fuseGo]
  rw [if_pos hcond, if_neg h2]

/-- The first fusion window shape (`sign Number Colon Number`) matches at the
head of the lookahead list. -/
def shape1At (l : List AnyToken) : Prop :=
  ∃ n1 c n2 r, l = n1 :: c :: n2 :: r ∧ n1.atype = .base .Number
    ∧ c.atype = .base .Colon ∧ n2.atype = .base .Number

/-- The second fusion window shape (`sign` + 2- or 4-digit Number) matches at
the head of the lookahead list. -/
def shape2At (l : List AnyToken) : Prop :=
  ∃ n1 r, l = n1 :: r ∧ n1.atype = .base .Number
    ∧ (n1.aval.length = 2 ∨ n1.aval.length = 4)

theorem shape1At_cons (a b c : AnyToken) (r : List AnyToken) :
    shape1At (a :: b :: c :: r)
      ↔ (a.atype = .base .Number ∧ b.atype = .base .Colon ∧ c.atype = .base .Number) := by
  constructor
  · rintro ⟨n1, cc, n2, rr, heq, h⟩
    obtain ⟨rfl, rfl, rfl, rfl⟩ := by simpa using heq
    exact h
  · intro h
    exact ⟨a, b, c, r, rfl, h⟩

theorem shape2At_cons (a : AnyToken) (r : List AnyToken) :
    shape2At (a :: r)
      ↔ (a.atype = .base .Number ∧ (a.aval.length = 2 ∨ a.aval.length = 4)) := by
  constructor
  · rintro ⟨n1, rr, heq, h⟩
    obtain ⟨rfl, rfl⟩ := by simpa using heq
    exact h
  · intro h
    exact ⟨a, r, rfl, h⟩

theorem not_shape1At_short (l : List AnyToken) (hl : l.length ≤ 2) : ¬shape1At l := by
  rintro ⟨n1, c, n2, r, rfl, -⟩
  simp at hl

/-- Pullback of a non-fused head through a fuser pass: if a pass emits a
non-TZOffset token first, that token was the input's head pushed raw, and the
remaining output is the pass over the input's tail. -/
theorem fuseGo_head_raw (fuel : Nat) (ctx2 r : List AnyToken) (x : AnyToken)
    (r' : List AnyToken) (h : fuseGo fuel ctx2 r = x :: r')
    (hx : x.atype ≠ .TZOffset) :
    ∃ r2, r = x :: r2 ∧ r' = fuseGo (fuel - 1) (x :: ctx2) r2 := by
  cases fuel with
  | zero => exact ⟨r', h, rfl⟩
  | succ fuel =>
    cases r with
    | nil => rw [fuseGo_nil] at h; cases h
    | cons u rest =>
      by_cases hcond : (isSignTok u && couldBeTzOffset ctx2) = true
      · rcases rest with _ | ⟨n1, _ | ⟨c, _ | ⟨n2, rest'⟩⟩⟩
        · rw [fuseGo_cons_nil] at h
          injection h with h1 h2
          exact ⟨[], by rw [h1], by rw [← h1]; exact h2.symm⟩
        · by_cases h2 : n1.atype = .base .Number ∧ (n1.aval.length = 2 ∨ n1.aval.length = 4)
          · rw [fuseGo_fused2_one fuel ctx2 u n1 hcond h2] at h
            injection h with h1 _
            exact absurd (h1 ▸ atype_mkFused2 u n1) hx
          · rw [fuseGo_raw_one fuel ctx2 u n1 hcond h2] at h
            injection h with h1 h2'
            exact ⟨[n1], by rw [h1], by rw [← h1]; exact h2'.symm⟩
        · by_cases h2 : n1.atype = .base .Number ∧ (n1.aval.length = 2 ∨ n1.aval.length = 4)
          · rw [fuseGo_fused2_two fuel ctx2 u n1 c hcond h2] at h
            injection h with h1 _
            exact absurd (h1 ▸ atype_mkFused2 u n1) hx
          · rw [fuseGo_raw_two fuel ctx2 u n1 c hcond h2] at h
            injection h with h1 h2'
            exact ⟨[n1, c], by rw [h1], by rw [← h1]; exact h2'.symm⟩
        · by_cases h1 : n1.atype = .base .Number ∧ c.atype = .base .Colon
              ∧ n2.atype = .base .Number
          · rw [fuseGo_fused4 fuel ctx2 u n1 c n2 rest' hcond h1] at h
            injection h with ha _
            exact absurd (ha ▸ atype_mkFused4 u n1 c n2) hx
          · by_cases h2 : n1.atype = .base .Number ∧ (n1.aval.length = 2 ∨ n1.aval.length = 4)
            · rw [fuseGo_fused2_long fuel ctx2 u n1 c n2 rest' hcond h1 h2] at h
              injection h with ha _
              exact absurd (ha ▸ atype_mkFused2 u n1) hx
            · rw [fuseGo_raw_long fuel ctx2 u n1 c n2 rest' hcond h1 h2] at h
              injection h with ha hb
              exact ⟨n1 :: c :: n2 :: rest', by rw [ha], by rw [← ha]; exact hb.symm⟩
      · rw [fuseGo_not_fusable fuel ctx2 u rest hcond] at h
        injection h with h1 h2
        exact ⟨rest, by rw [h1], by rw [← h1]; exact h2.symm⟩

/-- If the first pass pushed `t` raw (sign/context check failed, or neither
window shape matched the lookahead), a second pass over the output also
pushes `t` raw: no new fusion opportunity appears at `t`. -/
theorem fuseGo_step_raw (g' fuel : Nat) (ctx : List AnyToken) (t : AnyToken)
    (rest : List AnyToken)
    (hraw : ¬((isSignTok t && couldBeTzOffset ctx) = true)
      ∨ (¬shape1At rest ∧ ¬shape2At rest)) :
    fuseGo (g' + 1) ctx (t :: fuseGo fuel (t :: ctx) rest)
      = t :: fuseGo g' (t :: ctx) (fuseGo fuel (t :: ctx) rest) := by
  rcases hraw with hcond | ⟨hS1, hS2⟩
  · exact fuseGo_not_fusable g' ctx t _ hcond
  · by_cases hcond : (isSignTok t && couldBeTzOffset ctx) = true
    case neg => exact fuseGo_not_fusable g' ctx t _ hcond
    case pos =>
      rcases hys : fuseGo fuel (t :: ctx) rest with _ | ⟨m1, _ | ⟨m2, _ | ⟨m3, ys3⟩⟩⟩
      · rw [fuseGo_cons_nil]
      · by_cases hm : m1.atype = .base .Number ∧ (m1.aval.length = 2 ∨ m1.aval.length = 4)
        · have hne : m1.atype ≠ .TZOffset := by rw [hm.1]; intro hc; cases hc
          obtain ⟨r2, hrest, -⟩ := fuseGo_head_raw fuel (t :: ctx) rest m1 [] hys hne
          exact absurd ⟨m1, r2, hrest, hm.1, hm.2⟩ hS2
        · rw [fuseGo_raw_one g' ctx t m1 hcond hm]
      · by_cases hm : m1.atype = .base .Number ∧ (m1.aval.length = 2 ∨ m1.aval.length = 4)
        · have hne : m1.atype ≠ .TZOffset := by rw [hm.1]; intro hc; cases hc
          obtain ⟨r2, hrest, -⟩ := fuseGo_head_raw fuel (t :: ctx) rest m1 [m2] hys hne
          exact absurd ⟨m1, r2, hrest, hm.1, hm.2⟩ hS2
        · rw [fuseGo_raw_two g' ctx t m1 m2 hcond hm]
      · by_cases h1 : m1.atype = .base .Number ∧ m2.atype = .base .Colon
            ∧ m3.atype = .base .Number
        · have hne1 : m1.atype ≠ .TZOffset := by rw [h1.1]; intro hc; cases hc
          have hne2 : m2.atype ≠ .TZOffset := by rw [h1.2.1]; intro hc; cases hc
          have hne3 : m3.atype ≠ .TZOffset := by rw [h1.2.2]; intro hc; cases hc
          obtain ⟨r2, hrest, htail1⟩ :=
            fuseGo_head_raw fuel (t :: ctx) rest m1 (m2 :: m3 :: ys3) hys hne1
          obtain ⟨r3, hr2, htail2⟩ :=
            fuseGo_head_raw (fuel - 1) (m1 :: t :: ctx) r2 m2 (m3 :: ys3) htail1.symm hne2
          obtain ⟨r4, hr3, -⟩ :=
            fuseGo_head_raw (fuel - 1 - 1) (m2 :: m1 :: t :: ctx) r3 m3 ys3 htail2.symm hne3
          refine absurd ⟨m1, m2, m3, r4, ?_, h1⟩ hS1
          rw [hrest, hr2, hr3]
        · by_cases hm : m1.atype = .base .Number ∧ (m1.aval.length = 2 ∨ m1.aval.length = 4)
          · have hne : m1.atype ≠ .TZOffset := by rw [hm.1]; intro hc; cases hc
            obtain ⟨r2, hrest, -⟩ :=
              fuseGo_head_raw fuel (t :: ctx) rest m1 (m2 :: m3 :: ys3) hys hne
            exact absurd ⟨m1, r2, hrest, hm.1, hm.2⟩ hS2
          · rw [fuseGo_raw_long g' ctx t m1 m2 m3 ys3 hcond h1 hm]

/-- Core idempotence: a second fuser pass (with any sufficient fuel) over the
output of a first pass (with any sufficient fuel) changes nothing. -/
theorem fuseGo_idem_aux : ∀ (fuel g : Nat) (ctx l : List AnyToken),
    l.length ≤ fuel → (fuseGo fuel ctx l).length ≤ g →
    fuseGo g ctx (fuseGo fuel ctx l) = fuseGo fuel ctx l := by
  intro fuel
  induction fuel with
  | zero =>
    intro g ctx l hl hg
    have hnil : l = [] := List.length_eq_zero.mp (Nat.le_zero.mp hl)
    subst hnil
    rw [fuseGo_zero, fuseGo_nil]
  | succ fuel ih =>
    intro g ctx l hl hg
    cases l with
    | nil => rw [fuseGo_nil, fuseGo_nil]
    | cons t rest =>
      by_cases hcond : (isSignTok t && couldBeTzOffset ctx) = true
      case neg =>
        rw [fuseGo_not_fusable fuel ctx t rest hcond] at hg ⊢
        obtain ⟨g', rfl⟩ : ∃ g', g = g' + 1 := ⟨g - 1, by simp at hg; omega⟩
        rw [fuseGo_step_raw g' fuel ctx t rest (Or.inl hcond)]
        congr 1
        exact ih g' (t :: ctx) rest (by simp at hl; omega) (by simp at hg ⊢; omega)
      case pos =>
        rcases rest with _ | ⟨n1, _ | ⟨c, _ | ⟨n2, rest'⟩⟩⟩
        · rw [fuseGo_cons_nil, fuseGo_nil] at hg ⊢
          obtain ⟨g', rfl⟩ : ∃ g', g = g' + 1 := ⟨g - 1, by simp at hg; omega⟩
          rw [fuseGo_cons_nil, fuseGo_nil]
        · by_cases h2 : n1.atype = .base .Number ∧ (n1.aval.length = 2 ∨ n1.aval.length = 4)
          · rw [fuseGo_fused2_one fuel ctx t n1 hcond h2, fuseGo_nil] at hg ⊢
            obtain ⟨g', rfl⟩ : ∃ g', g = g' + 1 := ⟨g - 1, by simp at hg; omega⟩
            rw [fuseGo_cons_nil, fuseGo_nil]
          · rw [fuseGo_raw_one fuel ctx t n1 hcond h2] at hg ⊢
            obtain ⟨g', rfl⟩ : ∃ g', g = g' + 1 := ⟨g - 1, by simp at hg; omega⟩
            rw [fuseGo_step_raw g' fuel ctx t [n1]
              (Or.inr ⟨not_shape1At_short [n1] (by simp),
                by rw [shape2At_cons]; exact h2⟩)]
            congr 1
            exact ih g' (t :: ctx) [n1] (by simp at hl ⊢; omega) (by simp at hg ⊢; omega)
        · by_cases h2 : n1.atype = .base .Number ∧ (n1.aval.length = 2 ∨ n1.aval.length = 4)
          · rw [fuseGo_fused2_two fuel ctx t n1 c hcond h2] at hg ⊢
            obtain ⟨g', rfl⟩ : ∃ g', g = g' + 1 := ⟨g - 1, by simp at hg; omega⟩
            rw [fuseGo_not_fusable g' ctx (mkFused2 t n1) _ (by simp [isSignTok_mkFused2])]
            congr 1
            exact ih g' (mkFused2 t n1 :: ctx) [c]
              (by simp at hl ⊢; omega) (by simp at hg ⊢; omega)
          · rw [fuseGo_raw_two fuel ctx t n1 c hcond h2] at hg ⊢
            obtain ⟨g', rfl⟩ : ∃ g', g = g' + 1 := ⟨g - 1, by simp at hg; omega⟩
            rw [fuseGo_step_raw g' fuel ctx t [n1, c]
              (Or.inr ⟨not_shape1At_short [n1, c] (by simp),
                by rw [shape2At_cons]; exact h2⟩)]
            congr 1
            exact ih g' (t :: ctx) [n1, c] (by simp at hl ⊢; omega) (by simp at hg ⊢; omega)
        · by_cases h1 : n1.atype = .base .Number ∧ c.atype = .base .Colon
              ∧ n2.atype = .base .Number
          · rw [fuseGo_fused4 fuel ctx t n1 c n2 rest' hcond h1] at hg ⊢
            obtain ⟨g', rfl⟩ : ∃ g', g = g' + 1 := ⟨g - 1, by simp at hg; omega⟩
            rw [fuseGo_not_fusable g' ctx (mkFused4 t n1 c n2) _ (by simp [isSignTok_mkFused4])]
            congr 1
            exact ih g' (mkFused4 t n1 c n2 :: ctx) rest'
              (by simp at hl ⊢; omega) (by simp at hg ⊢; omega)
          · by_cases h2 : n1.atype = .base .Number ∧ (n1.aval.length = 2 ∨ n1.aval.length = 4)
            · rw [fuseGo_fused2_long fuel ctx t n1 c n2 rest' hcond h1 h2] at hg ⊢
              obtain ⟨g', rfl⟩ : ∃ g', g = g' + 1 := ⟨g - 1, by simp at hg; omega⟩
              rw [fuseGo_not_fusable g' ctx (mkFused2 t n1) _ (by simp [isSignTok_mkFused2])]
              congr 1
              exact ih g' (mkFused2 t n1 :: ctx) (c :: n2 :: rest')
                (by simp at hl ⊢; omega) (by simp at hg ⊢; omega)
            · rw [fuseGo_raw_long fuel ctx t n1 c n2 rest' hcond h1 h2] at hg ⊢
              obtain ⟨g', rfl⟩ : ∃ g', g = g' + 1 := ⟨g - 1, by simp at hg; omega⟩
              rw [fuseGo_step_raw g' fuel ctx t (n1 :: c :: n2 :: rest')
                (Or.inr ⟨by rw [shape1At_cons]; exact h1,
                  by rw [shape2At_cons]; exact h2⟩)]
              congr 1
              exact ih g' (t :: ctx) (n1 :: c :: n2 :: rest')
                (by simp at hl ⊢; omega) (by simp at hg ⊢; omega)

/-- C4: the offset fuser is idempotent — fusing an already-fused token
sequence (for any input sequence of raw and already-fused tokens) yields the
same sequence unchanged. -/
theorem combineTimezoneOffsets_idempotent (toks : List AnyToken) :
    combineTimezoneOffsets (combineTimezoneOffsets toks) = combineTimezoneOffsets toks := by
  unfold combineTimezoneOffsets
  exact fuseGo_idem_aux toks.length (fuseGo toks.length [] toks).length [] toks
    le_rfl le_rfl
